import Mathlib

/-!
Verification development for the sic-bo round engine of the tggamebot
repository.  The definitions below are shallow embeddings of the Python
source files `src/models.py`, `src/sicbo_calculator.py`, `src/sicbo_manager.py`,
`src/concurrency.py`, `src/database.py` and `src/repositories.py`:
pure functions become Lean functions, stateful methods become explicit
state-passing functions, Python dicts become association lists keyed by id,
and Python ints become Lean `Int`.
-/

/-! ## Data model (src/models.py) -/

/-- Embedding of `GamePhase` enumeration from `src/models.py`. -/
inductive GamePhase where
  | IDLE
  | BETTING
  | ROLLING
  | SETTLING
  deriving DecidableEq, Repr

/-- Embedding of `BetType` enumeration from `src/models.py`. -/
inductive BetType where
  | SINGLE
  | PAIR
  | SUM
  | BIG
  | SMALL
  deriving DecidableEq, Repr

/-- Embedding of `SicBoBet` dataclass from `src/models.py`.  Timestamps are modelled as
integers. -/
structure SicBoBet where
  user_id : Int
  bet_type : BetType
  amount : Int
  numbers : List Int
  created_at : Int
  username : String
  deriving DecidableEq, Repr

/-- Embedding of `SicBoGame` dataclass from `src/models.py` (the `panel_message_id`
field is transport-layer only and carried as-is). -/
structure SicBoGame where
  chat_id : Int
  phase : GamePhase
  bets : List SicBoBet
  dice_results : List Int
  created_at : Int
  betting_end_time : Int
  panel_message_id : Option Int := none
  deriving DecidableEq, Repr

/-- Embedding of `User` dataclass from `src/models.py` / the `users` table row. -/
structure User where
  telegram_id : Int
  username : String
  balance : Int
  last_daily_claim : Int
  created_at : Int
  updated_at : Int
  deriving DecidableEq, Repr

/-- One row of the append-only `transactions` table (the `Transaction`
dataclass without the autoincrement id). -/
structure TxRecord where
  user_id : Int
  amount : Int
  tx_type : String
  description : Option String
  created_at : Int
  deriving DecidableEq, Repr

/-! ## Payout calculator (src/sicbo_calculator.py) -/

namespace SicBoCalculator

/-- Embedding of `SicBoCalculator.SUM_PAYOUTS`, a dict read with `.get(target_sum, 0)`;
modelled as the total function taking the dict's default `0` off-table. -/
def SUM_PAYOUTS (s : Int) : Int :=
  if s = 4 then 61 else if s = 17 then 61 else
  if s = 5 then 31 else if s = 16 then 31 else
  if s = 6 then 18 else if s = 15 then 18 else
  if s = 7 then 13 else if s = 14 then 13 else
  if s = 8 then 9 else if s = 13 then 9 else
  if s = 9 then 7 else if s = 12 then 7 else
  if s = 10 then 7 else if s = 11 then 7 else 0

/-- Embedding of `SicBoCalculator.is_triple`: `False` unless the list has exactly three
entries, all equal. -/
def is_triple : List Int → Bool
  | [a, b, c] => a == b && b == c
  | _ => false

/-- Embedding of `SicBoCalculator.calculate_single_payout`. -/
def calculate_single_payout (bet_number : Int) (dice : List Int)
    (bet_amount : Int) : Int :=
  let match_count : Int := (dice.count bet_number : Nat)
  if match_count = 0 then 0
  else bet_amount * (match_count + 1)

/-- Embedding of `SicBoCalculator.calculate_pair_payout`. -/
def calculate_pair_payout (numbers : List Int) (dice : List Int)
    (bet_amount : Int) : Int :=
  match numbers with
  | [num1, num2] =>
      if num1 ∈ dice ∧ num2 ∈ dice then bet_amount * 6 else 0
  | _ => 0

/-- Embedding of `SicBoCalculator.calculate_sum_payout`. -/
def calculate_sum_payout (target_sum : Int) (dice : List Int)
    (bet_amount : Int) : Int :=
  if is_triple dice then 0
  else if dice.sum = target_sum then bet_amount * SUM_PAYOUTS target_sum
  else 0

/-- Embedding of `SicBoCalculator.calculate_big_small_payout`. -/
def calculate_big_small_payout (isBig : Bool) (dice : List Int)
    (bet_amount : Int) : Int :=
  if is_triple dice then 0
  else
    let total := dice.sum
    match isBig with
    | true => if 11 ≤ total ∧ total ≤ 17 then bet_amount * 2 else 0
    | false => if 4 ≤ total ∧ total ≤ 10 then bet_amount * 2 else 0

/-- Embedding of `SicBoCalculator.calculate_bet_payout`, the unified entry point.
The Python code indexes `bet.numbers[0]` for SINGLE/SUM bets, which every
caller reaches only after `validate_bet_input` guaranteed a non-empty
selection; `headD 0` reads that same first element. -/
def calculate_bet_payout (bet : SicBoBet) (dice : List Int) : Int :=
  match bet.bet_type with
  | .SINGLE => calculate_single_payout (bet.numbers.headD 0) dice bet.amount
  | .PAIR => calculate_pair_payout bet.numbers dice bet.amount
  | .SUM => calculate_sum_payout (bet.numbers.headD 0) dice bet.amount
  | .BIG => calculate_big_small_payout true dice bet.amount
  | .SMALL => calculate_big_small_payout false dice bet.amount

end SicBoCalculator

/-! ## The §4.3 payout contract, written from the spec's words
(for the refinement claim C1). -/

/-- The §4.3 sum-payout table, transcribed from the spec:
`{4,17:61; 5,16:31; 6,15:18; 7,14:13; 8,13:9; 9,10,11,12:7}`. -/
def specSumTable (s : Int) : Int :=
  if s = 4 ∨ s = 17 then 61
  else if s = 5 ∨ s = 16 then 31
  else if s = 6 ∨ s = 15 then 18
  else if s = 7 ∨ s = 14 then 13
  else if s = 8 ∨ s = 13 then 9
  else if s = 9 ∨ s = 10 ∨ s = 11 ∨ s = 12 then 7
  else 0

/-- The §4.3 payout contract on a 3-value outcome `(d1, d2, d3)`,
written from the spec's words: single(d) pays `N×(matches+1)` when
`matches > 0` and `0` otherwise; pair(d1≠d2) pays `6N` iff the outcome
contains both values; sum(s) pays `0` on a triple, else `N×table[s]`
when the total equals `s`, else `0`; high pays `2N` iff the total is in
11–17 and the outcome is not a triple; low pays `2N` iff the total is in
4–10 and the outcome is not a triple. -/
def specPayout (bt : BetType) (numbers : List Int) (n d1 d2 d3 : Int) : Int :=
  match bt, numbers with
  | .SINGLE, [d] =>
      let m : Int := ([d1, d2, d3].count d : Nat)
      if 0 < m then n * (m + 1) else 0
  | .PAIR, [v1, v2] =>
      if v1 ∈ [d1, d2, d3] ∧ v2 ∈ [d1, d2, d3] then n * 6 else 0
  | .SUM, [s] =>
      if d1 = d2 ∧ d2 = d3 then 0
      else if d1 + d2 + d3 = s then n * specSumTable s else 0
  | .BIG, _ =>
      if ¬ (d1 = d2 ∧ d2 = d3) ∧ 11 ≤ d1 + d2 + d3 ∧ d1 + d2 + d3 ≤ 17 then
        n * 2
      else 0
  | .SMALL, _ =>
      if ¬ (d1 = d2 ∧ d2 = d3) ∧ 4 ≤ d1 + d2 + d3 ∧ d1 + d2 + d3 ≤ 10 then
        n * 2
      else 0
  | _, _ => 0

/-! ## Bet-input validation (src/sicbo_manager.py, `validate_bet_input`) -/

namespace SicBoManager

/-- Embedding of `SicBoManager.validate_bet_input`: the length checks of the Python code
become shape matches (a failed length check and a non-matching shape coincide). -/
def validate_bet_input (bet_type : BetType) (numbers : List Int) :
    Bool × String :=
  match bet_type with
  | .SINGLE =>
      match numbers with
      | [d] =>
          if ¬ (1 ≤ d ∧ d ≤ 6) then (false, "数字必须在 1-6 之间")
          else (true, "")
      | _ => (false, "单一数字押注需要指定一个数字")
  | .PAIR =>
      match numbers with
      | [n1, n2] =>
          if n1 = n2 then (false, "两个数字必须不同")
          else if ¬ (1 ≤ n1 ∧ n1 ≤ 6 ∧ 1 ≤ n2 ∧ n2 ≤ 6) then
            (false, "数字必须在 1-6 之间")
          else (true, "")
      | _ => (false, "组合押注需要指定两个数字")
  | .SUM =>
      match numbers with
      | [s] =>
          if ¬ (4 ≤ s ∧ s ≤ 17) then (false, "总和必须在 4-17 之间（3和18不可押注）")
          else (true, "")
      | _ => (false, "总和押注需要指定一个总和值")
  | .BIG => (true, "")
  | .SMALL => (true, "")

end SicBoManager

/-! ## Ledger state (src/database.py, src/repositories.py) -/

/-- Visible state of the backing store: the `users` table and the
append-only `transactions` table. -/
structure DBState where
  users : List User
  transactions : List TxRecord
  deriving DecidableEq, Repr

namespace UserRepository

/-- Embedding of `UserRepository.get_user`:
`SELECT * FROM users WHERE telegram_id = ?`, a primary-key lookup. -/
def get_user (db : DBState) (telegram_id : Int) : Option User :=
  db.users.find? (fun u => u.telegram_id == telegram_id)

/-- Embedding of `UserRepository.update_balance`:
`UPDATE users SET balance = balance + ?, updated_at = ? WHERE telegram_id = ?`
followed by `return True` unconditionally (also when no row matched). -/
def update_balance (db : DBState) (now telegram_id amount : Int) :
    Bool × DBState :=
  (true,
   { db with users := db.users.map (fun u =>
       if u.telegram_id == telegram_id then
         { u with balance := u.balance + amount, updated_at := now }
       else u) })

end UserRepository

namespace TransactionRepository

/-- Embedding of `TransactionRepository.log_transaction`: an append-only
`INSERT INTO transactions ...`. -/
def log_transaction (db : DBState) (now user_id amount : Int)
    (transaction_type : String) (description : Option String) : DBState :=
  { db with transactions :=
      db.transactions ++ [⟨user_id, amount, transaction_type, description, now⟩] }

end TransactionRepository

namespace AccountManager

/-- Embedding of `AccountManager.get_balance`: `0` for a missing user. -/
def get_balance (db : DBState) (telegram_id : Int) : Int :=
  match UserRepository.get_user db telegram_id with
  | none => 0
  | some u => u.balance

end AccountManager

/-- One logical Ledger operation inside a batch: it reads and rewrites the
uncommitted connection state, or raises an exception. -/
def DBOp : Type := DBState → Except String DBState

/-- Runs the operations of a batch in order on the connection's uncommitted
state, stopping at the first exception. -/
def runOps : List DBOp → DBState → Except String DBState
  | [], s => Except.ok s
  | op :: rest, s =>
      match op s with
      | Except.ok s' => runOps rest s'
      | Except.error e => Except.error e

/-- Embedding of `DatabaseManager.transaction` from `src/database.py`:
`BEGIN IMMEDIATE`, run every operation on the borrowed connection,
`commit` and return `True` on success; on any exception `rollback` and
re-raise.  The second component is the visible (committed) database state:
the new state after a commit, the original state after a rollback. -/
def DatabaseManager.transaction (db : DBState) (ops : List DBOp) :
    Except String Bool × DBState :=
  match runOps ops db with
  | Except.ok s' => (Except.ok true, s')
  | Except.error e => (Except.error e, db)

/-! ## Session registry (src/concurrency.py, `GameSessionManager`) -/

/-- Embedding of `GAME_SESSION_TIMEOUT` from `src/concurrency.py`. -/
def GAME_SESSION_TIMEOUT : Int := 60

/-- State of `GameSessionManager`: the `_active_sessions` dict
(user id to (game type, start time)) and the `_timeout` parameter. -/
structure GameSessionManager where
  active_sessions : List (Int × String × Int)
  timeout : Int := GAME_SESSION_TIMEOUT
  deriving DecidableEq, Repr

namespace GameSessionManager

/-- Dict lookup `self._active_sessions[user_id]` (first matching key). -/
def lookupSession : List (Int × String × Int) → Int → Option (String × Int)
  | [], _ => none
  | (uid, g, t0) :: rest, user_id =>
      if uid == user_id then some (g, t0) else lookupSession rest user_id

/-- Dict deletion `del self._active_sessions[user_id]`. -/
def removeSession : List (Int × String × Int) → Int → List (Int × String × Int)
  | [], _ => []
  | (uid, g, t0) :: rest, user_id =>
      if uid == user_id then removeSession rest user_id
      else (uid, g, t0) :: removeSession rest user_id

/-- Dict assignment `self._active_sessions[user_id] = value`
(replace in place, else append). -/
def setSession : List (Int × String × Int) → Int → String × Int →
    List (Int × String × Int)
  | [], user_id, v => [(user_id, v.1, v.2)]
  | (uid, g, t0) :: rest, user_id, v =>
      if uid == user_id then (user_id, v.1, v.2) :: rest
      else (uid, g, t0) :: setSession rest user_id v

/-- Embedding of `GameSessionManager.start_session`: fails while an
unexpired session exists; an expired one (elapsed strictly above the
timeout) is deleted and replaced. -/
def start_session (m : GameSessionManager) (now user_id : Int)
    (game_type : String) : (Bool × String) × GameSessionManager :=
  match lookupSession m.active_sessions user_id with
  | some (current_game, start_time) =>
      if now - start_time > m.timeout then
        ((true, "游戏会话已创建"),
         { m with active_sessions :=
             (setSession (removeSession m.active_sessions user_id)
               user_id (game_type, now)) })
      else
        ((false, "您已有进行中的 " ++ current_game ++ " 游戏，请先完成当前游戏"), m)
  | none =>
      ((true, "游戏会话已创建"),
       { m with active_sessions :=
           setSession m.active_sessions user_id (game_type, now) })

end GameSessionManager

/-! ## Round engine (src/sicbo_manager.py) -/

/-- Combined state a `SicBoManager` can reach: the Ledger state shared
through `account_mgr`/`tx_repo`, and the `active_games` dict
(chat id to game). -/
structure ManagerState where
  db : DBState
  active_games : List (Int × SicBoGame)
  deriving DecidableEq, Repr

namespace SicBoManager

/-- Embedding of `SicBoManager.BETTING_DURATION`. -/
def BETTING_DURATION : Int := 60

/-- Dict lookup `self.active_games.get(chat_id)`. -/
def lookupGame : List (Int × SicBoGame) → Int → Option SicBoGame
  | [], _ => none
  | (c, g) :: rest, chat_id =>
      if c == chat_id then some g else lookupGame rest chat_id

/-- Dict assignment `self.active_games[chat_id] = game`. -/
def setGame : List (Int × SicBoGame) → Int → SicBoGame →
    List (Int × SicBoGame)
  | [], chat_id, g => [(chat_id, g)]
  | (c, g0) :: rest, chat_id, g =>
      if c == chat_id then (chat_id, g) :: rest
      else (c, g0) :: setGame rest chat_id g

/-- Dict deletion `del self.active_games[chat_id]`. -/
def removeGame : List (Int × SicBoGame) → Int → List (Int × SicBoGame)
  | [], _ => []
  | (c, g0) :: rest, chat_id =>
      if c == chat_id then removeGame rest chat_id
      else (c, g0) :: removeGame rest chat_id

/-- Embedding of `SicBoManager.get_game`. -/
def get_game (st : ManagerState) (chat_id : Int) : Option SicBoGame :=
  lookupGame st.active_games chat_id

/-- Return value of `SicBoManager._get_game_start_message`. -/
def game_start_message : String :=
  "🎲 骰宝游戏开始！\n\n📋 下注区域和赔率：\n• 单一数字 (1-6): 1:1 / 2:1 / 3:1\n• 两数组合: 5:1\n• 总和 (4-17): 6:1 ~ 60:1\n• 大 (11-17): 1:1\n• 小 (4-10): 1:1\n\n⚠️ 围骰（三个相同）时，总和和大小押注庄家通吃\n\n📝 下注命令：\n/bet single <数字> <金额>\n/bet pair <数字1> <数字2> <金额>\n/bet sum <总和> <金额>\n/bet big <金额>\n/bet small <金额>\n\n⏰ 下注时间：60 秒"

/-- Fresh round created by `start_game`. -/
def newGame (now chat_id : Int) : SicBoGame :=
  { chat_id := chat_id
    phase := GamePhase.BETTING
    bets := []
    dice_results := []
    created_at := now
    betting_end_time := now + BETTING_DURATION }

/-- Embedding of `SicBoManager.start_game`: rejected while a non-IDLE round
exists for the chat; otherwise a fresh BETTING round with a 60s deadline is
stored (the Python code reaches the same creation code from both the
key-missing and the IDLE-round branches). -/
def start_game (st : ManagerState) (now chat_id : Int) :
    (Bool × String) × ManagerState :=
  match get_game st chat_id with
  | some existing_game =>
      if existing_game.phase ≠ GamePhase.IDLE then
        ((false, "当前已有进行中的游戏，请等待游戏结束"), st)
      else
        ((true, game_start_message),
         { st with active_games := setGame st.active_games chat_id (newGame now chat_id) })
  | none =>
      ((true, game_start_message),
       { st with active_games := setGame st.active_games chat_id (newGame now chat_id) })

/-- Embedding of `SicBoManager._get_bet_type_name` (display name; the
indexing of `numbers[0]`/`numbers[1]` is reached only on validated input). -/
def get_bet_type_name (bet_type : BetType) (numbers : List Int) : String :=
  match bet_type with
  | .SINGLE => "单一数字 " ++ toString (numbers.headD 0)
  | .PAIR => "组合 " ++ toString (numbers.headD 0) ++ "-" ++
      toString ((numbers.drop 1).headD 0)
  | .SUM => "总和 " ++ toString (numbers.headD 0)
  | .BIG => "大"
  | .SMALL => "小"

/-- The comparison `_find_existing_bet` applies to each stored bet. -/
def betKeyMatches (b : SicBoBet) (user_id : Int) (bet_type : BetType)
    (numbers : List Int) : Bool :=
  b.user_id == user_id && b.bet_type == bet_type && b.numbers == numbers

/-- Embedding of `SicBoManager._find_existing_bet`: first bet of the round
with the same user, kind and selection. -/
def find_existing_bet (game : SicBoGame) (user_id : Int) (bet_type : BetType)
    (numbers : List Int) : Option SicBoBet :=
  game.bets.find? (fun b => betKeyMatches b user_id bet_type numbers)

/-- In-place mutation `existing_bet.amount += amount`: the first bet with
the given key gets its stake increased. -/
def addToExistingBet : List SicBoBet → Int → BetType → List Int → Int →
    List SicBoBet
  | [], _, _, _, _ => []
  | b :: rest, user_id, bet_type, numbers, amount =>
      if betKeyMatches b user_id bet_type numbers then
        { b with amount := b.amount + amount } :: rest
      else b :: addToExistingBet rest user_id bet_type numbers amount

/-- Embedding of `SicBoManager.place_bet`: phase, deadline, stake and
selection checks, then balance check, Ledger debit, audit record, and
merge-or-append of the bet. -/
def place_bet (st : ManagerState) (now chat_id user_id : Int)
    (bet_type : BetType) (amount : Int) (numbers : List Int)
    (username : String) : (Bool × String) × ManagerState :=
  match get_game st chat_id with
  | none => ((false, "当前没有进行中的骰宝游戏"), st)
  | some game =>
      if game.phase ≠ GamePhase.BETTING then
        ((false, "当前不在下注阶段，请等待新游戏开始"), st)
      else if now > game.betting_end_time then
        ((false, "下注时间已结束"), st)
      else if amount ≤ 0 then
        ((false, "下注金额必须大于 0"), st)
      else if (validate_bet_input bet_type numbers).1 = false then
        ((false, (validate_bet_input bet_type numbers).2), st)
      else
        let balance := AccountManager.get_balance st.db user_id
        if balance < amount then
          ((false, "余额不足，当前余额：" ++ toString balance), st)
        else
          let db1 := (UserRepository.update_balance st.db now user_id (-amount)).2
          let bet_type_name := get_bet_type_name bet_type numbers
          let db2 := TransactionRepository.log_transaction db1 now user_id
            (-amount) "sicbo_bet" (some ("骰宝押注: " ++ bet_type_name))
          match find_existing_bet game user_id bet_type numbers with
          | some existing_bet =>
              let game' := { game with
                bets := addToExistingBet game.bets user_id bet_type numbers amount }
              ((true, "下注成功！" ++ bet_type_name ++ "，累计金额：" ++
                  toString (existing_bet.amount + amount)),
               { db := db2, active_games := setGame st.active_games chat_id game' })
          | none =>
              let bet : SicBoBet := ⟨user_id, bet_type, amount, numbers, now, username⟩
              let game' := { game with bets := game.bets ++ [bet] }
              ((true, "下注成功！" ++ bet_type_name ++ "，金额：" ++ toString amount),
               { db := db2, active_games := setGame st.active_games chat_id game' })

/-- Result message built by `roll_dice`. -/
def diceMessage (dice_results : List Int) : String :=
  let total := dice_results.sum
  let dice_str := String.intercalate " "
    (dice_results.map (fun d => "🎲" ++ toString d))
  "🎲 骰子结果: " ++ dice_str ++ "\n📊 总和: " ++ toString total ++ "\n" ++
  (if SicBoCalculator.is_triple dice_results then "⚠️ 围骰！庄家通吃大小和总和押注！"
   else if total ≥ 11 then "📈 大" else "📉 小")

/-- Embedding of `SicBoManager.roll_dice`: only BETTING rounds move to
ROLLING; a caller-supplied outcome is stored unvalidated, and `generated`
stands for the three `random.randint(1, 6)` draws used when no outcome is
supplied. -/
def roll_dice (st : ManagerState) (chat_id : Int)
    (dice_results : Option (List Int)) (generated : List Int) :
    (Bool × List Int × String) × ManagerState :=
  match get_game st chat_id with
  | none => ((false, [], "当前没有进行中的骰宝游戏"), st)
  | some game =>
      if game.phase ≠ GamePhase.BETTING then
        ((false, [], "当前不在下注阶段，无法开骰子"), st)
      else
        let results :=
          match dice_results with
          | none => generated
          | some ds => ds
        let game' := { game with phase := GamePhase.ROLLING, dice_results := results }
        ((true, results, diceMessage results),
         { st with active_games := setGame st.active_games chat_id game' })

/-- Per-bet record stored in a player's `'bets'` list by
`_calculate_player_results`. -/
structure BetDetail where
  bet_type : BetType
  numbers : List Int
  amount : Int
  payout : Int
  deriving DecidableEq, Repr

/-- One entry of the `_calculate_player_results` dict. -/
structure PlayerResult where
  user_id : Int
  bets : List BetDetail
  total_bet : Int
  total_payout : Int
  username : String
  deriving DecidableEq, Repr

/-- One iteration of the `_calculate_player_results` loop: insert the bet
into the (insertion-ordered) results, creating the player's entry on first
sight (`bet.username or str(user_id)`). -/
def addBetToResults (dice : List Int) : List PlayerResult → SicBoBet →
    List PlayerResult
  | [], bet =>
      [{ user_id := bet.user_id
         bets := [⟨bet.bet_type, bet.numbers, bet.amount,
           SicBoCalculator.calculate_bet_payout bet dice⟩]
         total_bet := bet.amount
         total_payout := SicBoCalculator.calculate_bet_payout bet dice
         username := if bet.username == "" then toString bet.user_id
           else bet.username }]
  | r :: rest, bet =>
      if r.user_id == bet.user_id then
        { r with
          bets := r.bets ++ [⟨bet.bet_type, bet.numbers, bet.amount,
            SicBoCalculator.calculate_bet_payout bet dice⟩]
          total_bet := r.total_bet + bet.amount
          total_payout := r.total_payout +
            SicBoCalculator.calculate_bet_payout bet dice } :: rest
      else r :: addBetToResults dice rest bet

/-- Embedding of `SicBoManager._calculate_player_results`. -/
def calculate_player_results (game : SicBoGame) : List PlayerResult :=
  game.bets.foldl (addBetToResults game.dice_results) []

/-- The settlement loop of `settle_game`: every strictly positive total
payout is credited (`update_balance`) and audited (`log_transaction`). -/
def creditWinners (now : Int) : DBState → List PlayerResult → DBState
  | db, [] => db
  | db, r :: rest =>
      let db' :=
        if r.total_payout > 0 then
          TransactionRepository.log_transaction
            ((UserRepository.update_balance db now r.user_id r.total_payout).2)
            now r.user_id r.total_payout "sicbo_win"
            (some ("骰宝赢钱: " ++ toString r.total_payout))
        else db
      creditWinners now db' rest

/-- One line of `_build_settlement_message` for a player. -/
def settlementLine (r : PlayerResult) : String :=
  let net := r.total_payout - r.total_bet
  if net > 0 then "🎉 @" ++ r.username ++ " +" ++ toString net ++ "\n"
  else if net < 0 then "😢 @" ++ r.username ++ " " ++ toString net ++ "\n"
  else "😐 @" ++ r.username ++ " ±0\n"

/-- Embedding of `SicBoManager._build_settlement_message`. -/
def build_settlement_message (game : SicBoGame)
    (player_results : List PlayerResult) : String :=
  let dice_str := String.intercalate " "
    (game.dice_results.map (fun d => "🎲" ++ toString d))
  let total := game.dice_results.sum
  "🎰 骰宝结算\n━━━━━━━━━━━━━━━\n骰子: " ++ dice_str ++ " = " ++ toString total ++
  (if SicBoCalculator.is_triple game.dice_results then " (围骰)\n"
   else if total ≥ 11 then " (大)\n" else " (小)\n") ++
  "━━━━━━━━━━━━━━━\n" ++
  (if player_results.isEmpty then "本局无人下注\n"
   else String.join (player_results.map settlementLine)) ++
  "━━━━━━━━━━━━━━━\n游戏结束"

/-- Embedding of `SicBoManager.settle_game`: only a ROLLING round with a
3-value outcome settles; winners are credited, the net map
(total payout minus total stake per player) is returned and the round is
deleted (the transient SETTLING and IDLE phase assignments of the Python
code happen on the object that is removed in the same call). -/
def settle_game (st : ManagerState) (now chat_id : Int) :
    (Bool × List (Int × Int) × String) × ManagerState :=
  match get_game st chat_id with
  | none => ((false, [], "当前没有进行中的骰宝游戏"), st)
  | some game =>
      if game.phase ≠ GamePhase.ROLLING then
        ((false, [], "游戏尚未开骰子，无法结算"), st)
      else if game.dice_results.isEmpty ∨ game.dice_results.length ≠ 3 then
        ((false, [], "骰子结果无效，无法结算"), st)
      else
        let player_results := calculate_player_results game
        let db' := creditWinners now st.db player_results
        let msg := build_settlement_message game player_results
        let net_results := player_results.map
          (fun r => (r.user_id, r.total_payout - r.total_bet))
        ((true, net_results, msg),
         { db := db', active_games := removeGame st.active_games chat_id })

end SicBoManager

/-! ## Statement-level auxiliary definitions -/

/-- Iterated `place_bet`: the same wager placed `n` times in a row at the
same instant; the flag is `true` when every single placement succeeded. -/
def SicBoManager.placeRepeat (now chat_id user_id : Int) (bet_type : BetType)
    (amount : Int) (numbers : List Int) (username : String) :
    Nat → ManagerState → Bool × ManagerState
  | 0, st => (true, st)
  | n + 1, st =>
      match placeRepeat now chat_id user_id bet_type amount numbers username
          n st with
      | (true, st') =>
          let r := SicBoManager.place_bet st' now chat_id user_id bet_type
            amount numbers username
          (r.1.1, r.2)
      | (false, st') => (false, st')

/-- The §3 Bet invariant: a round holds at most one bet per
(actor, kind, selection) key. -/
def SicBoManager.uniqueBetKeys (g : SicBoGame) : Prop :=
  ∀ (user_id : Int) (bet_type : BetType) (numbers : List Int),
    (g.bets.filter
      (fun b => SicBoManager.betKeyMatches b user_id bet_type numbers)).length ≤ 1

/-- Proof bookkeeping: the `total_bet` recorded for actor `u` in a
`_calculate_player_results` accumulator (`0` when the actor is absent). -/
def SicBoManager.totalBetOf (rs : List SicBoManager.PlayerResult) (u : Int) : Int :=
  match rs.find? (fun r => r.user_id == u) with
  | some r => r.total_bet
  | none => 0

/-- Proof bookkeeping: the `total_payout` recorded for actor `u` in a
`_calculate_player_results` accumulator (`0` when the actor is absent). -/
def SicBoManager.totalPayoutOf (rs : List SicBoManager.PlayerResult) (u : Int) : Int :=
  match rs.find? (fun r => r.user_id == u) with
  | some r => r.total_payout
  | none => 0

/-- Concrete round used for the Scenario-A settlement check: actor 1 bet
100 on high, actor 2 bet 150 on single 3, outcome [2, 3, 6]. -/
def scenarioGame : SicBoGame :=
  ⟨99, GamePhase.ROLLING,
    [⟨1, BetType.BIG, 100, [], 5, "A"⟩,
     ⟨2, BetType.SINGLE, 150, [3], 6, "B"⟩],
    [2, 3, 6], 0, 60, none⟩

/-- Manager state holding `scenarioGame` and the two actors' balances. -/
def scenarioState : ManagerState :=
  ⟨⟨[⟨1, "A", 900, 0, 0, 0⟩, ⟨2, "B", 850, 0, 0, 0⟩], []⟩,
   [(99, scenarioGame)]⟩

/-! ## C1: payout fidelity -/

theorem specSumTable_eq_SUM_PAYOUTS (s : Int) (h1 : 4 ≤ s) (h2 : s ≤ 17) :
    SicBoCalculator.SUM_PAYOUTS s = specSumTable s := by
  interval_cases s <;> rfl

theorem is_triple_iff (a b c : Int) :
    SicBoCalculator.is_triple [a, b, c] = true ↔ a = b ∧ b = c := by
  simp [SicBoCalculator.is_triple]

theorem sum_three (d1 d2 d3 : Int) :
    ([d1, d2, d3] : List Int).sum = d1 + d2 + d3 := by
  simp only [List.sum_cons, List.sum_nil]
  ring

/-- C1: for every bet whose selection is valid for its kind and every
3-value outcome, `calculate_bet_payout` returns exactly the amount given
by the §4.3 contract (`specPayout`), including triple-zeroing. -/
theorem calculate_bet_payout_matches_contract
    (uid : Int) (bt : BetType) (n : Int) (numbers : List Int)
    (t : Int) (un : String) (d1 d2 d3 : Int)
    (hv : (SicBoManager.validate_bet_input bt numbers).1 = true) :
    SicBoCalculator.calculate_bet_payout ⟨uid, bt, n, numbers, t, un⟩ [d1, d2, d3]
      = specPayout bt numbers n d1 d2 d3 := by
  cases bt with
  | SINGLE =>
      match numbers with
      | [] => simp [SicBoManager.validate_bet_input] at hv
      | [d] =>
          simp only [SicBoCalculator.calculate_bet_payout,
            SicBoCalculator.calculate_single_payout, specPayout,
            List.headD]
          split_ifs <;> first | rfl | omega
      | a :: b :: rest => simp [SicBoManager.validate_bet_input] at hv
  | PAIR =>
      match numbers with
      | [] => simp [SicBoManager.validate_bet_input] at hv
      | [a] => simp [SicBoManager.validate_bet_input] at hv
      | [a, b] =>
          simp only [SicBoCalculator.calculate_bet_payout,
            SicBoCalculator.calculate_pair_payout, specPayout]
      | a :: b :: c :: rest => simp [SicBoManager.validate_bet_input] at hv
  | SUM =>
      match numbers with
      | [] => simp [SicBoManager.validate_bet_input] at hv
      | [s] =>
          have hs : 4 ≤ s ∧ s ≤ 17 := by
            by_contra hc
            simp [SicBoManager.validate_bet_input, hc] at hv
          simp only [SicBoCalculator.calculate_bet_payout,
            SicBoCalculator.calculate_sum_payout, specPayout,
            List.headD, specSumTable_eq_SUM_PAYOUTS s hs.1 hs.2, sum_three]
          rcases Decidable.em (d1 = d2 ∧ d2 = d3) with htrip | htrip
          · rw [if_pos ((is_triple_iff d1 d2 d3).mpr htrip), if_pos htrip]
          · rw [if_neg (fun h => htrip ((is_triple_iff d1 d2 d3).mp h)),
              if_neg htrip]
      | a :: b :: rest => simp [SicBoManager.validate_bet_input] at hv
  | BIG =>
      simp only [SicBoCalculator.calculate_bet_payout,
        SicBoCalculator.calculate_big_small_payout, specPayout, sum_three]
      rcases Decidable.em (d1 = d2 ∧ d2 = d3) with htrip | htrip
      · rw [if_pos ((is_triple_iff d1 d2 d3).mpr htrip),
          if_neg (fun h => h.1 htrip)]
      · rw [if_neg (fun h => htrip ((is_triple_iff d1 d2 d3).mp h))]
        rcases Decidable.em (11 ≤ d1 + d2 + d3 ∧ d1 + d2 + d3 ≤ 17) with hr | hr
        · rw [if_pos hr, if_pos ⟨htrip, hr⟩]
        · rw [if_neg hr, if_neg (fun h => hr h.2)]
  | SMALL =>
      simp only [SicBoCalculator.calculate_bet_payout,
        SicBoCalculator.calculate_big_small_payout, specPayout, sum_three]
      rcases Decidable.em (d1 = d2 ∧ d2 = d3) with htrip | htrip
      · rw [if_pos ((is_triple_iff d1 d2 d3).mpr htrip),
          if_neg (fun h => h.1 htrip)]
      · rw [if_neg (fun h => htrip ((is_triple_iff d1 d2 d3).mp h))]
        rcases Decidable.em (4 ≤ d1 + d2 + d3 ∧ d1 + d2 + d3 ≤ 10) with hr | hr
        · rw [if_pos hr, if_pos ⟨htrip, hr⟩]
        · rw [if_neg hr, if_neg (fun h => hr h.2)]

/-- Witness for C1: a stake-150 single-3 bet on outcome `[2, 3, 6]`
(the spec's Scenario A), with the validity hypothesis discharged. -/
theorem calculate_bet_payout_matches_contract_witness :
    SicBoCalculator.calculate_bet_payout
        ⟨2, BetType.SINGLE, 150, [3], 0, "B"⟩ [2, 3, 6]
      = specPayout BetType.SINGLE [3] 150 2 3 6 :=
  calculate_bet_payout_matches_contract 2 BetType.SINGLE 150 [3] 0 "B" 2 3 6
    (by decide)

/-! ## Helper lemmas about the keyed stores -/

theorem lookupGame_setGame_self (l : List (Int × SicBoGame)) (chat_id : Int)
    (g : SicBoGame) :
    SicBoManager.lookupGame (SicBoManager.setGame l chat_id g) chat_id = some g := by
  induction l with
  | nil => simp [SicBoManager.setGame, SicBoManager.lookupGame]
  | cons p rest ih =>
      obtain ⟨c, g0⟩ := p
      by_cases h : c == chat_id
      · simp [SicBoManager.setGame, SicBoManager.lookupGame, h]
      · simp [SicBoManager.setGame, SicBoManager.lookupGame, h, ih]

theorem lookupGame_removeGame_self (l : List (Int × SicBoGame)) (chat_id : Int) :
    SicBoManager.lookupGame (SicBoManager.removeGame l chat_id) chat_id = none := by
  induction l with
  | nil => simp [SicBoManager.removeGame, SicBoManager.lookupGame]
  | cons p rest ih =>
      obtain ⟨c, g0⟩ := p
      by_cases h : c == chat_id
      · simp [SicBoManager.removeGame, SicBoManager.lookupGame, h, ih]
      · simp [SicBoManager.removeGame, SicBoManager.lookupGame, h, ih]

theorem lookupSession_setSession_self (l : List (Int × String × Int))
    (user_id : Int) (v : String × Int) :
    GameSessionManager.lookupSession
      (GameSessionManager.setSession l user_id v) user_id = some v := by
  induction l with
  | nil => simp [GameSessionManager.setSession, GameSessionManager.lookupSession]
  | cons p rest ih =>
      obtain ⟨uid, g, t0⟩ := p
      by_cases h : uid == user_id
      · simp [GameSessionManager.setSession, GameSessionManager.lookupSession, h]
      · simp [GameSessionManager.setSession, GameSessionManager.lookupSession, h, ih]

/-! ## C10: update_balance on a nonexistent actor -/

theorem update_users_map_id (users : List User) (telegram_id now amount : Int)
    (h : ∀ u ∈ users, (u.telegram_id == telegram_id) = false) :
    users.map (fun u =>
      if u.telegram_id == telegram_id then
        { u with balance := u.balance + amount, updated_at := now }
      else u) = users := by
  induction users with
  | nil => rfl
  | cons u rest ih =>
      have hu := h u (List.mem_cons_self u rest)
      have hrest := ih (fun v hv => h v (List.mem_cons_of_mem u hv))
      simp only [List.map_cons]
      rw [if_neg (by simp [hu]), hrest]

/-- C10: `UserRepository.update_balance` reports success (`True`) for every
actor id and delta and never appends a movement; when no `users` row has
that id the whole store is left unchanged, so a credit to an unknown actor
is silently lost. -/
theorem update_balance_silent_on_missing_actor
    (db : DBState) (now telegram_id amount : Int) :
    (UserRepository.update_balance db now telegram_id amount).1 = true ∧
    (UserRepository.update_balance db now telegram_id amount).2.transactions
      = db.transactions ∧
    (UserRepository.get_user db telegram_id = none →
      (UserRepository.update_balance db now telegram_id amount).2 = db) := by
  refine ⟨rfl, rfl, fun hnone => ?_⟩
  have hall : ∀ u ∈ db.users, (u.telegram_id == telegram_id) = false := by
    intro u hu
    have := List.find?_eq_none.mp hnone u hu
    simpa using this
  show ({ db with users := _ } : DBState) = db
  rw [update_users_map_id db.users telegram_id now amount hall]

/-- Witness for C10 at a store holding only actor 1, crediting actor 2. -/
theorem update_balance_silent_on_missing_actor_witness :
    (UserRepository.update_balance
        ⟨[⟨1, "A", 1000, 0, 0, 0⟩], []⟩ 5 2 300).1 = true ∧
    (UserRepository.update_balance
        ⟨[⟨1, "A", 1000, 0, 0, 0⟩], []⟩ 5 2 300).2.transactions = [] ∧
    (UserRepository.update_balance
        ⟨[⟨1, "A", 1000, 0, 0, 0⟩], []⟩ 5 2 300).2
      = (⟨[⟨1, "A", 1000, 0, 0, 0⟩], []⟩ : DBState) := by
  have h := update_balance_silent_on_missing_actor
    ⟨[⟨1, "A", 1000, 0, 0, 0⟩], []⟩ 5 2 300
  exact ⟨h.1, h.2.1, h.2.2 (by decide)⟩

/-! ## C4: batch atomicity -/

theorem runOps_error_of_failing_op (pre post : List DBOp) (op : DBOp)
    (hop : ∀ s, ∃ e, op s = Except.error e) :
    ∀ db, ∃ e, runOps (pre ++ op :: post) db = Except.error e := by
  induction pre with
  | nil =>
      intro db
      obtain ⟨e, he⟩ := hop db
      exact ⟨e, by simp [runOps, he]⟩
  | cons p rest ih =>
      intro db
      cases hp : p db with
      | ok s' =>
          obtain ⟨e, he⟩ := ih s'
          exact ⟨e, by simp [runOps, hp, he]⟩
      | error e => exact ⟨e, by simp [runOps, hp]⟩

/-- C4: the Ledger batch primitive is all-or-nothing.  If an operation of
the batch raises (wherever it is placed), the visible state after
`DatabaseManager.transaction` is exactly the state before it and the
exception is re-raised; if every operation succeeds, the batch commits the
sequentially accumulated effects together. -/
theorem transaction_all_or_nothing :
    (∀ (db : DBState) (pre post : List DBOp) (op : DBOp),
      (∀ s, ∃ e, op s = Except.error e) →
      (DatabaseManager.transaction db (pre ++ op :: post)).2 = db ∧
      ∃ e, (DatabaseManager.transaction db (pre ++ op :: post)).1
            = Except.error e) ∧
    (∀ (db : DBState) (ops : List DBOp) (s' : DBState),
      runOps ops db = Except.ok s' →
      DatabaseManager.transaction db ops = (Except.ok true, s')) := by
  constructor
  · intro db pre post op hop
    obtain ⟨e, he⟩ := runOps_error_of_failing_op pre post op hop db
    constructor
    · simp [DatabaseManager.transaction, he]
    · exact ⟨e, by simp [DatabaseManager.transaction, he]⟩
  · intro db ops s' h
    simp [DatabaseManager.transaction, h]

/-- Witness for C4: a two-op batch whose second op raises leaves the
one-user store untouched; the same batch without the raising op commits. -/
theorem transaction_all_or_nothing_witness :
    ((DatabaseManager.transaction ⟨[⟨1, "A", 1000, 0, 0, 0⟩], []⟩
        ([fun s => Except.ok ((UserRepository.update_balance s 7 1 (-100)).2)]
          ++ (fun _ => Except.error "boom") :: [])).2
      = (⟨[⟨1, "A", 1000, 0, 0, 0⟩], []⟩ : DBState)) ∧
    (DatabaseManager.transaction ⟨[⟨1, "A", 1000, 0, 0, 0⟩], []⟩
        [fun s => Except.ok ((UserRepository.update_balance s 7 1 (-100)).2)]
      = (Except.ok true, (⟨[⟨1, "A", 900, 0, 0, 7⟩], []⟩ : DBState))) := by
  constructor
  · exact (transaction_all_or_nothing.1 ⟨[⟨1, "A", 1000, 0, 0, 0⟩], []⟩
      [fun s => Except.ok ((UserRepository.update_balance s 7 1 (-100)).2)]
      [] (fun _ => Except.error "boom") (fun s => ⟨"boom", rfl⟩)).1
  · exact transaction_all_or_nothing.2 ⟨[⟨1, "A", 1000, 0, 0, 0⟩], []⟩
      [fun s => Except.ok ((UserRepository.update_balance s 7 1 (-100)).2)]
      ⟨[⟨1, "A", 900, 0, 0, 7⟩], []⟩ (by rfl)

/-! ## C7: session exclusivity -/

/-- C7: while an unexpired session (elapsed at most 60s) exists,
`start_session` fails with a message naming the existing session's kind and
leaves the registry unchanged; when the session is expired (elapsed
strictly over 60s) or absent, it succeeds and records `(kind, now)`. -/
theorem start_session_exclusivity (m : GameSessionManager)
    (now user_id : Int) (game_type : String) (ht : m.timeout = 60) :
    (∀ g t0,
      GameSessionManager.lookupSession m.active_sessions user_id = some (g, t0) →
      now - t0 ≤ 60 →
      GameSessionManager.start_session m now user_id game_type =
        ((false, "您已有进行中的 " ++ g ++ " 游戏，请先完成当前游戏"), m)) ∧
    (∀ g t0,
      GameSessionManager.lookupSession m.active_sessions user_id = some (g, t0) →
      now - t0 > 60 →
      (GameSessionManager.start_session m now user_id game_type).1.1 = true ∧
      GameSessionManager.lookupSession
          (GameSessionManager.start_session m now user_id game_type).2.active_sessions
          user_id = some (game_type, now)) ∧
    (GameSessionManager.lookupSession m.active_sessions user_id = none →
      (GameSessionManager.start_session m now user_id game_type).1.1 = true ∧
      GameSessionManager.lookupSession
          (GameSessionManager.start_session m now user_id game_type).2.active_sessions
          user_id = some (game_type, now)) := by
  refine ⟨?_, ?_, ?_⟩
  · intro g t0 hl hle
    simp only [GameSessionManager.start_session, hl, ht]
    rw [if_neg (by omega)]
  · intro g t0 hl hgt
    simp only [GameSessionManager.start_session, hl, ht]
    rw [if_pos (by omega)]
    exact ⟨by simp, lookupSession_setSession_self _ _ _⟩
  · intro hl
    simp only [GameSessionManager.start_session, hl]
    exact ⟨by simp, lookupSession_setSession_self _ _ _⟩

/-- Witness for C7: an empty registry accepts a new session, and the
registry then rejects a second one 30 seconds later, naming the kind. -/
theorem start_session_exclusivity_witness :
    ((GameSessionManager.start_session ⟨[], 60⟩ 1000 7 "sicbo").1.1 = true ∧
      GameSessionManager.lookupSession
        (GameSessionManager.start_session ⟨[], 60⟩ 1000 7 "sicbo").2.active_sessions 7
        = some ("sicbo", 1000)) ∧
    GameSessionManager.start_session ⟨[(7, "sicbo", 1000)], 60⟩ 1030 7 "blackjack"
      = ((false, "您已有进行中的 " ++ "sicbo" ++ " 游戏，请先完成当前游戏"),
         ⟨[(7, "sicbo", 1000)], 60⟩) := by
  constructor
  · exact (start_session_exclusivity ⟨[], 60⟩ 1000 7 "sicbo" rfl).2.2 rfl
  · exact (start_session_exclusivity ⟨[(7, "sicbo", 1000)], 60⟩ 1030 7 "blackjack"
      rfl).1 "sicbo" 1000 rfl (by omega)

/-! ## C8: settling an empty round -/

/-- C8: a ROLLING round with a valid 3-value outcome and no bets settles
successfully with an empty net map, leaves every balance and the movement
log untouched, removes the round, and a subsequent open succeeds. -/
theorem settle_empty_round (st : ManagerState) (now now2 chat_id : Int)
    (g : SicBoGame) (hg : SicBoManager.get_game st chat_id = some g)
    (hphase : g.phase = GamePhase.ROLLING)
    (hdice : g.dice_results.length = 3)
    (hbets : g.bets = []) :
    (SicBoManager.settle_game st now chat_id).1.1 = true ∧
    (SicBoManager.settle_game st now chat_id).1.2.1 = [] ∧
    (SicBoManager.settle_game st now chat_id).2.db = st.db ∧
    SicBoManager.get_game (SicBoManager.settle_game st now chat_id).2 chat_id
      = none ∧
    (SicBoManager.start_game (SicBoManager.settle_game st now chat_id).2
        now2 chat_id).1.1 = true := by
  have hne : ¬ (g.dice_results.isEmpty = true ∨ g.dice_results.length ≠ 3) := by
    rw [List.isEmpty_iff_length_eq_zero]
    omega
  have hres : SicBoManager.calculate_player_results g = [] := by
    simp [SicBoManager.calculate_player_results, hbets]
  simp only [SicBoManager.get_game] at hg
  simp only [SicBoManager.settle_game, SicBoManager.get_game, hg]
  rw [if_neg (by simp [hphase]), if_neg hne]
  simp only [hres, SicBoManager.creditWinners, List.map_nil]
  refine ⟨by trivial, by trivial, by trivial, lookupGame_removeGame_self _ _, ?_⟩
  simp only [SicBoManager.start_game, SicBoManager.get_game,
    lookupGame_removeGame_self]

/-- Witness for C8 on a concrete one-room state with no bets. -/
theorem settle_empty_round_witness :
    (SicBoManager.settle_game
        ⟨⟨[⟨1, "A", 1000, 0, 0, 0⟩], []⟩,
         [(99, ⟨99, GamePhase.ROLLING, [], [2, 3, 6], 0, 60, none⟩)]⟩
        130 99).1.1 = true ∧
    (SicBoManager.settle_game
        ⟨⟨[⟨1, "A", 1000, 0, 0, 0⟩], []⟩,
         [(99, ⟨99, GamePhase.ROLLING, [], [2, 3, 6], 0, 60, none⟩)]⟩
        130 99).1.2.1 = [] := by
  have h := settle_empty_round
    ⟨⟨[⟨1, "A", 1000, 0, 0, 0⟩], []⟩,
     [(99, ⟨99, GamePhase.ROLLING, [], [2, 3, 6], 0, 60, none⟩)]⟩
    130 140 99 ⟨99, GamePhase.ROLLING, [], [2, 3, 6], 0, 60, none⟩
    rfl rfl rfl rfl
  exact ⟨h.1, h.2.1⟩

/-! ## C9: draw stores an unvalidated outcome and wedges the room -/

/-- C9: `roll_dice` accepts a caller-supplied outcome of any length during
BETTING and stores it while moving the round to ROLLING; with a non-3-value
outcome every later `settle_game` fails with the invalid-outcome message
and changes nothing, and `start_game` also fails and changes nothing, so
the round is never removed and the room cannot host a new round. -/
theorem roll_dice_unvalidated_wedges_room (st : ManagerState)
    (chat_id now now2 : Int) (g : SicBoGame) (supplied generated : List Int)
    (hg : SicBoManager.get_game st chat_id = some g)
    (hphase : g.phase = GamePhase.BETTING)
    (hlen : supplied.length ≠ 3) :
    (SicBoManager.roll_dice st chat_id (some supplied) generated).1.1 = true ∧
    (SicBoManager.roll_dice st chat_id (some supplied) generated).1.2.1
      = supplied ∧
    SicBoManager.get_game
        (SicBoManager.roll_dice st chat_id (some supplied) generated).2 chat_id
      = some { g with phase := GamePhase.ROLLING, dice_results := supplied } ∧
    (SicBoManager.settle_game
        (SicBoManager.roll_dice st chat_id (some supplied) generated).2
        now chat_id
      = ((false, [], "骰子结果无效，无法结算"),
         (SicBoManager.roll_dice st chat_id (some supplied) generated).2)) ∧
    ((SicBoManager.start_game
        (SicBoManager.roll_dice st chat_id (some supplied) generated).2
        now2 chat_id).1.1 = false ∧
      (SicBoManager.start_game
        (SicBoManager.roll_dice st chat_id (some supplied) generated).2
        now2 chat_id).2
       = (SicBoManager.roll_dice st chat_id (some supplied) generated).2) := by
  have hroll : SicBoManager.roll_dice st chat_id (some supplied) generated
      = ((true, supplied, SicBoManager.diceMessage supplied),
         { st with active_games := (SicBoManager.setGame st.active_games chat_id
            { g with phase := GamePhase.ROLLING, dice_results := supplied }) }) := by
    simp only [SicBoManager.get_game] at hg
    simp only [SicBoManager.roll_dice, SicBoManager.get_game, hg]
    rw [if_neg (by simp [hphase])]
  rw [hroll]
  refine ⟨rfl, rfl, lookupGame_setGame_self _ _ _, ?_, ?_, ?_⟩
  · simp only [SicBoManager.settle_game, SicBoManager.get_game,
      lookupGame_setGame_self]
    rw [if_neg (by simp)]
    rw [if_pos (Or.inr hlen)]
  · simp only [SicBoManager.start_game, SicBoManager.get_game,
      lookupGame_setGame_self]
    rw [if_pos (by simp)]
  · simp only [SicBoManager.start_game, SicBoManager.get_game,
      lookupGame_setGame_self]
    rw [if_pos (by simp)]

/-- Witness for C9: a BETTING round given the 2-value outcome `[1, 2]`. -/
theorem roll_dice_unvalidated_wedges_room_witness :
    (SicBoManager.roll_dice
        ⟨⟨[], []⟩, [(99, ⟨99, GamePhase.BETTING, [], [], 0, 60, none⟩)]⟩
        99 (some [1, 2]) []).1.1 = true ∧
    (SicBoManager.settle_game
        (SicBoManager.roll_dice
          ⟨⟨[], []⟩, [(99, ⟨99, GamePhase.BETTING, [], [], 0, 60, none⟩)]⟩
          99 (some [1, 2]) []).2 130 99).1.1 = false := by
  have h := roll_dice_unvalidated_wedges_room
    ⟨⟨[], []⟩, [(99, ⟨99, GamePhase.BETTING, [], [], 0, 60, none⟩)]⟩
    99 130 140 ⟨99, GamePhase.BETTING, [], [], 0, 60, none⟩ [1, 2] []
    rfl rfl (by decide)
  exact ⟨h.1, by rw [h.2.2.2.1]⟩

/-! ## Characterization lemmas for the round-engine operations -/

theorem place_bet_no_game (st : ManagerState) (now chat_id user_id : Int)
    (bt : BetType) (amount : Int) (numbers : List Int) (username : String)
    (hg : SicBoManager.get_game st chat_id = none) :
    SicBoManager.place_bet st now chat_id user_id bt amount numbers username
      = ((false, "当前没有进行中的骰宝游戏"), st) := by
  simp only [SicBoManager.get_game] at hg
  simp only [SicBoManager.place_bet, SicBoManager.get_game, hg]

theorem place_bet_wrong_phase (st : ManagerState) (now chat_id user_id : Int)
    (bt : BetType) (amount : Int) (numbers : List Int) (username : String)
    (g : SicBoGame) (hg : SicBoManager.get_game st chat_id = some g)
    (hph : g.phase ≠ GamePhase.BETTING) :
    SicBoManager.place_bet st now chat_id user_id bt amount numbers username
      = ((false, "当前不在下注阶段，请等待新游戏开始"), st) := by
  simp only [SicBoManager.get_game] at hg
  simp only [SicBoManager.place_bet, SicBoManager.get_game, hg]
  rw [if_pos hph]

theorem place_bet_ok_shape (st : ManagerState) (now chat_id user_id : Int)
    (bt : BetType) (amount : Int) (numbers : List Int) (username : String)
    (g : SicBoGame) (hg : SicBoManager.get_game st chat_id = some g)
    (hph : g.phase = GamePhase.BETTING)
    (htime : ¬ now > g.betting_end_time) (hamt : ¬ amount ≤ 0)
    (hval : (SicBoManager.validate_bet_input bt numbers).1 = true)
    (hbal : ¬ AccountManager.get_balance st.db user_id < amount) :
    SicBoManager.place_bet st now chat_id user_id bt amount numbers username
      = (match SicBoManager.find_existing_bet g user_id bt numbers with
         | some existing_bet =>
            ((true, "下注成功！" ++ SicBoManager.get_bet_type_name bt numbers ++
                "，累计金额：" ++ toString (existing_bet.amount + amount)),
             ⟨TransactionRepository.log_transaction
                ((UserRepository.update_balance st.db now user_id (-amount)).2)
                now user_id (-amount) "sicbo_bet"
                (some ("骰宝押注: " ++ SicBoManager.get_bet_type_name bt numbers)),
              SicBoManager.setGame st.active_games chat_id
                { g with bets := (SicBoManager.addToExistingBet g.bets user_id bt
                    numbers amount) }⟩)
         | none =>
            ((true, "下注成功！" ++ SicBoManager.get_bet_type_name bt numbers ++
                "，金额：" ++ toString amount),
             ⟨TransactionRepository.log_transaction
                ((UserRepository.update_balance st.db now user_id (-amount)).2)
                now user_id (-amount) "sicbo_bet"
                (some ("骰宝押注: " ++ SicBoManager.get_bet_type_name bt numbers)),
              SicBoManager.setGame st.active_games chat_id
                { g with bets := g.bets ++
                    [⟨user_id, bt, amount, numbers, now, username⟩] }⟩)) := by
  simp only [SicBoManager.get_game] at hg
  simp only [SicBoManager.place_bet, SicBoManager.get_game, hg]
  rw [if_neg (by simp [hph]), if_neg htime, if_neg hamt,
    if_neg (by simp [hval]), if_neg hbal]

theorem place_bet_fail_unchanged (st : ManagerState) (now chat_id user_id : Int)
    (bt : BetType) (amount : Int) (numbers : List Int) (username : String)
    (hfail : (SicBoManager.place_bet st now chat_id user_id bt amount numbers
        username).1.1 = false) :
    (SicBoManager.place_bet st now chat_id user_id bt amount numbers
        username).2 = st := by
  cases hg : SicBoManager.lookupGame st.active_games chat_id with
  | none => simp only [SicBoManager.place_bet, SicBoManager.get_game, hg]
  | some g =>
      simp only [SicBoManager.place_bet, SicBoManager.get_game, hg] at hfail ⊢
      split_ifs at hfail ⊢ <;> try rfl
      cases hfind : SicBoManager.find_existing_bet g user_id bt numbers <;>
        simp only [hfind] at hfail <;> simp at hfail

theorem roll_dice_no_game (st : ManagerState) (chat_id : Int)
    (supplied : Option (List Int)) (generated : List Int)
    (hg : SicBoManager.get_game st chat_id = none) :
    SicBoManager.roll_dice st chat_id supplied generated
      = ((false, [], "当前没有进行中的骰宝游戏"), st) := by
  simp only [SicBoManager.get_game] at hg
  simp only [SicBoManager.roll_dice, SicBoManager.get_game, hg]

theorem roll_dice_wrong_phase (st : ManagerState) (chat_id : Int)
    (supplied : Option (List Int)) (generated : List Int)
    (g : SicBoGame) (hg : SicBoManager.get_game st chat_id = some g)
    (hph : g.phase ≠ GamePhase.BETTING) :
    SicBoManager.roll_dice st chat_id supplied generated
      = ((false, [], "当前不在下注阶段，无法开骰子"), st) := by
  simp only [SicBoManager.get_game] at hg
  simp only [SicBoManager.roll_dice, SicBoManager.get_game, hg]
  rw [if_pos hph]

theorem roll_dice_ok_shape (st : ManagerState) (chat_id : Int)
    (supplied : Option (List Int)) (generated : List Int)
    (g : SicBoGame) (hg : SicBoManager.get_game st chat_id = some g)
    (hph : g.phase = GamePhase.BETTING) :
    SicBoManager.roll_dice st chat_id supplied generated
      = (let results := match supplied with
           | none => generated
           | some ds => ds
         ((true, results, SicBoManager.diceMessage results),
          { st with active_games := (SicBoManager.setGame st.active_games chat_id
              { g with phase := GamePhase.ROLLING, dice_results := results }) })) := by
  simp only [SicBoManager.get_game] at hg
  simp only [SicBoManager.roll_dice, SicBoManager.get_game, hg]
  rw [if_neg (by simp [hph])]

theorem settle_game_no_game (st : ManagerState) (now chat_id : Int)
    (hg : SicBoManager.get_game st chat_id = none) :
    SicBoManager.settle_game st now chat_id
      = ((false, [], "当前没有进行中的骰宝游戏"), st) := by
  simp only [SicBoManager.get_game] at hg
  simp only [SicBoManager.settle_game, SicBoManager.get_game, hg]

theorem settle_game_wrong_phase (st : ManagerState) (now chat_id : Int)
    (g : SicBoGame) (hg : SicBoManager.get_game st chat_id = some g)
    (hph : g.phase ≠ GamePhase.ROLLING) :
    SicBoManager.settle_game st now chat_id
      = ((false, [], "游戏尚未开骰子，无法结算"), st) := by
  simp only [SicBoManager.get_game] at hg
  simp only [SicBoManager.settle_game, SicBoManager.get_game, hg]
  rw [if_pos hph]

theorem settle_game_bad_dice (st : ManagerState) (now chat_id : Int)
    (g : SicBoGame) (hg : SicBoManager.get_game st chat_id = some g)
    (hph : g.phase = GamePhase.ROLLING)
    (hd : g.dice_results.isEmpty = true ∨ g.dice_results.length ≠ 3) :
    SicBoManager.settle_game st now chat_id
      = ((false, [], "骰子结果无效，无法结算"), st) := by
  simp only [SicBoManager.get_game] at hg
  simp only [SicBoManager.settle_game, SicBoManager.get_game, hg]
  rw [if_neg (by simp [hph]), if_pos hd]

theorem settle_game_ok_shape (st : ManagerState) (now chat_id : Int)
    (g : SicBoGame) (hg : SicBoManager.get_game st chat_id = some g)
    (hph : g.phase = GamePhase.ROLLING)
    (hd : ¬ (g.dice_results.isEmpty = true ∨ g.dice_results.length ≠ 3)) :
    SicBoManager.settle_game st now chat_id
      = ((true,
          (SicBoManager.calculate_player_results g).map
            (fun r => (r.user_id, r.total_payout - r.total_bet)),
          SicBoManager.build_settlement_message g
            (SicBoManager.calculate_player_results g)),
         ⟨SicBoManager.creditWinners now st.db
            (SicBoManager.calculate_player_results g),
          SicBoManager.removeGame st.active_games chat_id⟩) := by
  simp only [SicBoManager.get_game] at hg
  simp only [SicBoManager.settle_game, SicBoManager.get_game, hg]
  rw [if_neg (by simp [hph]), if_neg hd]

/-! ## C2: phase monotonicity -/

/-- C2: the round phase advances only strictly forward.  `place_bet`
succeeds only when the round exists in BETTING; `roll_dice` succeeds only
from BETTING and moves the round to ROLLING; `settle_game` succeeds only
from ROLLING with a 3-value outcome and removes the round; and every
out-of-phase call (including on an absent round) returns a failure and
leaves the whole state — phase, bet set and all balances — unchanged. -/
theorem phase_machine_monotonic (st : ManagerState)
    (now now2 chat_id user_id : Int) (bt : BetType) (amount : Int)
    (numbers : List Int) (username : String)
    (supplied : Option (List Int)) (generated : List Int) :
    ((SicBoManager.place_bet st now chat_id user_id bt amount numbers
        username).1.1 = true →
      ∃ g, SicBoManager.get_game st chat_id = some g ∧
        g.phase = GamePhase.BETTING) ∧
    ((SicBoManager.roll_dice st chat_id supplied generated).1.1 = true →
      ∃ g, SicBoManager.get_game st chat_id = some g ∧
        g.phase = GamePhase.BETTING ∧
        ∃ g', SicBoManager.get_game
            (SicBoManager.roll_dice st chat_id supplied generated).2 chat_id
          = some g' ∧ g'.phase = GamePhase.ROLLING) ∧
    ((SicBoManager.settle_game st now2 chat_id).1.1 = true →
      ∃ g, SicBoManager.get_game st chat_id = some g ∧
        g.phase = GamePhase.ROLLING ∧ g.dice_results.length = 3 ∧
        SicBoManager.get_game
            (SicBoManager.settle_game st now2 chat_id).2 chat_id = none) ∧
    ((∀ g, SicBoManager.get_game st chat_id = some g →
        g.phase ≠ GamePhase.BETTING) →
      (SicBoManager.place_bet st now chat_id user_id bt amount numbers
        username).1.1 = false ∧
      (SicBoManager.place_bet st now chat_id user_id bt amount numbers
        username).2 = st) ∧
    ((∀ g, SicBoManager.get_game st chat_id = some g →
        g.phase ≠ GamePhase.BETTING) →
      (SicBoManager.roll_dice st chat_id supplied generated).1.1 = false ∧
      (SicBoManager.roll_dice st chat_id supplied generated).2 = st) ∧
    ((∀ g, SicBoManager.get_game st chat_id = some g →
        g.phase ≠ GamePhase.ROLLING) →
      (SicBoManager.settle_game st now2 chat_id).1.1 = false ∧
      (SicBoManager.settle_game st now2 chat_id).2 = st) := by
  refine ⟨?_, ?_, ?_, ?_, ?_, ?_⟩
  · intro h
    cases hg : SicBoManager.get_game st chat_id with
    | none =>
        rw [place_bet_no_game st now chat_id user_id bt amount numbers
          username hg] at h
        simp at h
    | some g =>
        by_cases hph : g.phase = GamePhase.BETTING
        · exact ⟨g, rfl, hph⟩
        · rw [place_bet_wrong_phase st now chat_id user_id bt amount numbers
            username g hg hph] at h
          simp at h
  · intro h
    cases hg : SicBoManager.get_game st chat_id with
    | none =>
        rw [roll_dice_no_game st chat_id supplied generated hg] at h
        simp at h
    | some g =>
        by_cases hph : g.phase = GamePhase.BETTING
        · refine ⟨g, rfl, hph, ?_⟩
          rw [roll_dice_ok_shape st chat_id supplied generated g hg hph]
          exact ⟨_, lookupGame_setGame_self _ _ _, rfl⟩
        · rw [roll_dice_wrong_phase st chat_id supplied generated g hg hph] at h
          simp at h
  · intro h
    cases hg : SicBoManager.get_game st chat_id with
    | none =>
        rw [settle_game_no_game st now2 chat_id hg] at h
        simp at h
    | some g =>
        by_cases hph : g.phase = GamePhase.ROLLING
        · by_cases hd : (g.dice_results.isEmpty = true ∨
              g.dice_results.length ≠ 3)
          · rw [settle_game_bad_dice st now2 chat_id g hg hph hd] at h
            simp at h
          · refine ⟨g, rfl, hph, not_not.mp (not_or.mp hd).2, ?_⟩
            rw [settle_game_ok_shape st now2 chat_id g hg hph hd]
            exact lookupGame_removeGame_self _ _
        · rw [settle_game_wrong_phase st now2 chat_id g hg hph] at h
          simp at h
  · intro hnb
    cases hg : SicBoManager.get_game st chat_id with
    | none =>
        rw [place_bet_no_game st now chat_id user_id bt amount numbers
          username hg]
        exact ⟨rfl, rfl⟩
    | some g =>
        rw [place_bet_wrong_phase st now chat_id user_id bt amount numbers
          username g hg (hnb g hg)]
        exact ⟨rfl, rfl⟩
  · intro hnb
    cases hg : SicBoManager.get_game st chat_id with
    | none =>
        rw [roll_dice_no_game st chat_id supplied generated hg]
        exact ⟨rfl, rfl⟩
    | some g =>
        rw [roll_dice_wrong_phase st chat_id supplied generated g hg (hnb g hg)]
        exact ⟨rfl, rfl⟩
  · intro hnr
    cases hg : SicBoManager.get_game st chat_id with
    | none =>
        rw [settle_game_no_game st now2 chat_id hg]
        exact ⟨rfl, rfl⟩
    | some g =>
        rw [settle_game_wrong_phase st now2 chat_id g hg (hnr g hg)]
        exact ⟨rfl, rfl⟩

/-- Witness for C2 on a concrete ROLLING round: placing and drawing fail
without touching the state, and the settle-success clause applies. -/
theorem phase_machine_monotonic_witness :
    ((SicBoManager.place_bet
        ⟨⟨[], []⟩, [(99, ⟨99, GamePhase.ROLLING, [], [2, 3, 6], 0, 60, none⟩)]⟩
        10 99 1 BetType.BIG 100 [] "A").1.1 = false ∧
      (SicBoManager.place_bet
        ⟨⟨[], []⟩, [(99, ⟨99, GamePhase.ROLLING, [], [2, 3, 6], 0, 60, none⟩)]⟩
        10 99 1 BetType.BIG 100 [] "A").2
        = ⟨⟨[], []⟩, [(99, ⟨99, GamePhase.ROLLING, [], [2, 3, 6], 0, 60, none⟩)]⟩) ∧
    ((SicBoManager.roll_dice
        ⟨⟨[], []⟩, [(99, ⟨99, GamePhase.ROLLING, [], [2, 3, 6], 0, 60, none⟩)]⟩
        99 none [1, 1, 1]).1.1 = false) := by
  have h := phase_machine_monotonic
    ⟨⟨[], []⟩, [(99, ⟨99, GamePhase.ROLLING, [], [2, 3, 6], 0, 60, none⟩)]⟩
    10 20 99 1 BetType.BIG 100 [] "A" none [1, 1, 1]
  have hnb : ∀ g, SicBoManager.get_game
      ⟨⟨[], []⟩, [(99, ⟨99, GamePhase.ROLLING, [], [2, 3, 6], 0, 60, none⟩)]⟩
      99 = some g → g.phase ≠ GamePhase.BETTING := by
    intro g hg
    simp [SicBoManager.get_game, SicBoManager.lookupGame] at hg
    rw [← hg]
    decide
  exact ⟨h.2.2.2.1 hnb, (h.2.2.2.2.1 hnb).1⟩

/-! ## C6: validation precedes any Ledger mutation (corrected) -/

/-- Counterexample to C6 as stated: the claim says place rejects every
high/low request carrying a selection ("high/low require no selection"),
but `validate_bet_input` performs no check at all for BIG/SMALL, so a
BIG bet with selection `[1]` is accepted and debited. -/
theorem place_bet_accepts_high_with_selection :
    (SicBoManager.place_bet
        ⟨⟨[⟨1, "A", 1000, 0, 0, 0⟩], []⟩,
         [(99, ⟨99, GamePhase.BETTING, [], [], 0, 60, none⟩)]⟩
        10 99 1 BetType.BIG 100 [1] "A").1.1 = true := by
  rfl

/-- C6 (amended): place rejects, before any Ledger mutation, every request
whose stake is not positive or whose selection fails its kind's
validation — single: one digit in [1,6]; pair: two distinct digits in
[1,6]; sum: one value in [4,17]; high/low: no validation, any selection is
accepted — and on every rejection (no-round, wrong-phase, window-closed,
bad stake, bad selection, insufficient balance) no balance is debited, no
Movement is appended and the bet set is unchanged. -/
theorem place_bet_validation (st : ManagerState) (now chat_id user_id : Int)
    (bt : BetType) (amount : Int) (numbers : List Int) (username : String) :
    (amount ≤ 0 →
      (SicBoManager.place_bet st now chat_id user_id bt amount numbers
        username).1.1 = false) ∧
    ((SicBoManager.validate_bet_input bt numbers).1 = false →
      (SicBoManager.place_bet st now chat_id user_id bt amount numbers
        username).1.1 = false) ∧
    ((SicBoManager.place_bet st now chat_id user_id bt amount numbers
        username).1.1 = false →
      (SicBoManager.place_bet st now chat_id user_id bt amount numbers
        username).2 = st) ∧
    (∀ d, (SicBoManager.validate_bet_input BetType.SINGLE [d]).1 = true ↔
      (1 ≤ d ∧ d ≤ 6)) ∧
    (numbers.length ≠ 1 →
      (SicBoManager.validate_bet_input BetType.SINGLE numbers).1 = false) ∧
    (∀ a b, (SicBoManager.validate_bet_input BetType.PAIR [a, b]).1 = true ↔
      (a ≠ b ∧ 1 ≤ a ∧ a ≤ 6 ∧ 1 ≤ b ∧ b ≤ 6)) ∧
    (numbers.length ≠ 2 →
      (SicBoManager.validate_bet_input BetType.PAIR numbers).1 = false) ∧
    (∀ s, (SicBoManager.validate_bet_input BetType.SUM [s]).1 = true ↔
      (4 ≤ s ∧ s ≤ 17)) ∧
    (numbers.length ≠ 1 →
      (SicBoManager.validate_bet_input BetType.SUM numbers).1 = false) ∧
    (SicBoManager.validate_bet_input BetType.BIG numbers = (true, "") ∧
     SicBoManager.validate_bet_input BetType.SMALL numbers = (true, "")) := by
  refine ⟨?_, ?_, ?_, ?_, ?_, ?_, ?_, ?_, ?_, rfl, rfl⟩
  · intro hamt
    cases hg : SicBoManager.lookupGame st.active_games chat_id with
    | none => simp only [SicBoManager.place_bet, SicBoManager.get_game, hg]
    | some g =>
        simp only [SicBoManager.place_bet, SicBoManager.get_game, hg]
        split_ifs with h1 h2 h3 h4 h5 <;>
          first
          | rfl
          | exact absurd hamt h3
          | (cases hfind : SicBoManager.find_existing_bet g user_id bt numbers <;>
              simp only [hfind] <;> exact absurd hamt h3)
  · intro hval
    cases hg : SicBoManager.lookupGame st.active_games chat_id with
    | none => simp only [SicBoManager.place_bet, SicBoManager.get_game, hg]
    | some g =>
        simp only [SicBoManager.place_bet, SicBoManager.get_game, hg]
        split_ifs with h1 h2 h3 h4 h5 <;>
          first
          | rfl
          | exact absurd hval h4
          | (cases hfind : SicBoManager.find_existing_bet g user_id bt numbers <;>
              simp only [hfind] <;> exact absurd hval h4)
  · exact place_bet_fail_unchanged st now chat_id user_id bt amount numbers
      username
  · intro d
    simp only [SicBoManager.validate_bet_input]
    split_ifs with h <;> simp <;> omega
  · intro hlen
    match numbers, hlen with
    | [], _ => rfl
    | a :: b :: rest, _ => rfl
    | [a], h => exact absurd rfl h
  · intro a b
    simp only [SicBoManager.validate_bet_input]
    split_ifs with h1 h2 <;> simp <;> first | tauto | omega
  · intro hlen
    match numbers, hlen with
    | [], _ => rfl
    | [a], _ => rfl
    | a :: b :: c :: rest, _ => rfl
    | [a, b], h => exact absurd rfl h
  · intro s
    simp only [SicBoManager.validate_bet_input]
    split_ifs with h <;> simp <;> omega
  · intro hlen
    match numbers, hlen with
    | [], _ => rfl
    | a :: b :: rest, _ => rfl
    | [a], h => exact absurd rfl h

/-- Witness for C6 (amended): a zero-stake request and a malformed pair
selection are both rejected on a concrete BETTING round. -/
theorem place_bet_validation_witness :
    ((SicBoManager.place_bet
        ⟨⟨[⟨1, "A", 1000, 0, 0, 0⟩], []⟩,
         [(99, ⟨99, GamePhase.BETTING, [], [], 0, 60, none⟩)]⟩
        10 99 1 BetType.SINGLE 0 [3] "A").1.1 = false) ∧
    ((SicBoManager.validate_bet_input BetType.PAIR [2, 2]).1 = false) ∧
    ((SicBoManager.validate_bet_input BetType.SUM [3]).1 = false) := by
  refine ⟨?_, ?_, ?_⟩
  · exact (place_bet_validation
      ⟨⟨[⟨1, "A", 1000, 0, 0, 0⟩], []⟩,
       [(99, ⟨99, GamePhase.BETTING, [], [], 0, 60, none⟩)]⟩
      10 99 1 BetType.SINGLE 0 [3] "A").1 (by omega)
  · have h := ((place_bet_validation
      ⟨⟨[], []⟩, []⟩ 10 99 1 BetType.PAIR 1 [2, 2] "A").2.2.2.2.2.1 2 2)
    by_contra hc
    have := h.mp (by revert hc; cases hval : (SicBoManager.validate_bet_input
      BetType.PAIR [2, 2]).1 <;> simp [hval])
    exact this.1 rfl
  · have h := ((place_bet_validation
      ⟨⟨[], []⟩, []⟩ 10 99 1 BetType.SUM 1 [3] "A").2.2.2.2.2.2.2.1 3)
    by_contra hc
    have := h.mp (by revert hc; cases hval : (SicBoManager.validate_bet_input
      BetType.SUM [3]).1 <;> simp [hval])
    omega


/-! ## Ledger bookkeeping lemmas -/

theorem get_balance_log_transaction (db : DBState) (now u a : Int)
    (t : String) (d : Option String) (uid : Int) :
    AccountManager.get_balance
        (TransactionRepository.log_transaction db now u a t d) uid
      = AccountManager.get_balance db uid := rfl

theorem find?_update_map (l : List User) (now tid δ uid : Int) :
    (l.map (fun u => if u.telegram_id == tid then
        { u with balance := u.balance + δ, updated_at := now }
      else u)).find? (fun u => u.telegram_id == uid)
      = Option.map (fun u => if u.telegram_id == tid then
          { u with balance := u.balance + δ, updated_at := now } else u)
          (l.find? (fun u => u.telegram_id == uid)) := by
  induction l with
  | nil => rfl
  | cons u rest ih =>
      have hsame : ((if u.telegram_id == tid then
          ({ u with balance := u.balance + δ, updated_at := now } : User)
        else u).telegram_id == uid) = (u.telegram_id == uid) := by
        split_ifs <;> rfl
      simp only [List.map_cons, List.find?_cons, hsame]
      cases hb : (u.telegram_id == uid) with
      | true => rfl
      | false => exact ih

theorem get_balance_update_self (db : DBState) (now uid δ : Int) (u : User)
    (hu : UserRepository.get_user db uid = some u) :
    AccountManager.get_balance ((UserRepository.update_balance db now uid δ).2) uid
      = AccountManager.get_balance db uid + δ := by
  simp only [UserRepository.get_user] at hu
  have hid : (u.telegram_id == uid) = true := by
    simpa using List.find?_some hu
  simp only [AccountManager.get_balance, UserRepository.get_user,
    UserRepository.update_balance]
  rw [find?_update_map, hu]
  have hid' : u.telegram_id = uid := by simpa using hid
  simp [hid, hid']

theorem get_balance_of_no_user (db : DBState) (uid : Int)
    (h : UserRepository.get_user db uid = none) :
    AccountManager.get_balance db uid = 0 := by
  simp [AccountManager.get_balance, h]

/-! ## Bet-list filtering lemmas -/

theorem betKeyMatches_update_amount (b : SicBoBet) (x k1 : Int)
    (k2 : BetType) (k3 : List Int) :
    SicBoManager.betKeyMatches { b with amount := x } k1 k2 k3
      = SicBoManager.betKeyMatches b k1 k2 k3 := rfl

theorem betKeyMatches_new_bet (user_id : Int) (bt : BetType)
    (amount : Int) (numbers : List Int) (now : Int) (username : String) :
    SicBoManager.betKeyMatches ⟨user_id, bt, amount, numbers, now, username⟩
      user_id bt numbers = true := by
  simp [SicBoManager.betKeyMatches]

theorem find_existing_bet_none_iff (g : SicBoGame) (user_id : Int)
    (bt : BetType) (numbers : List Int) :
    SicBoManager.find_existing_bet g user_id bt numbers = none ↔
      g.bets.filter
        (fun b => SicBoManager.betKeyMatches b user_id bt numbers) = [] := by
  rw [SicBoManager.find_existing_bet, List.find?_eq_none,
    List.filter_eq_nil_iff]

theorem find?_of_filter_singleton {α : Type} (p : α → Bool) (l : List α) (b : α)
    (h : l.filter p = [b]) : l.find? p = some b := by
  induction l with
  | nil => simp at h
  | cons x rest ih =>
      by_cases hx : p x = true
      · simp only [List.filter_cons, hx, if_true] at h
        simp only [List.cons.injEq] at h
        obtain ⟨rfl, h2⟩ := h
        simp only [List.find?_cons, hx]
      · simp only [List.filter_cons, hx, if_false] at h
        simp only [List.find?_cons, hx]
        exact ih h

theorem filter_addToExistingBet (bets : List SicBoBet) (user_id : Int)
    (bt : BetType) (numbers : List Int) (δ : Int) (b : SicBoBet)
    (h : bets.filter (fun x => SicBoManager.betKeyMatches x user_id bt numbers)
      = [b]) :
    (SicBoManager.addToExistingBet bets user_id bt numbers δ).filter
        (fun x => SicBoManager.betKeyMatches x user_id bt numbers)
      = [{ b with amount := b.amount + δ }] := by
  induction bets with
  | nil => simp at h
  | cons x rest ih =>
      by_cases hx : SicBoManager.betKeyMatches x user_id bt numbers = true
      · simp only [List.filter_cons, hx, if_true, List.cons.injEq] at h
        simp only [SicBoManager.addToExistingBet, hx, if_true,
          List.filter_cons, betKeyMatches_update_amount, List.cons.injEq]
        exact ⟨by rw [h.1], h.2⟩
      · simp only [List.filter_cons, hx, if_false] at h
        simp [SicBoManager.addToExistingBet, hx, List.filter_cons]
        exact ih h

theorem filter_length_addToExistingBet (bets : List SicBoBet)
    (user_id : Int) (bt : BetType) (numbers : List Int) (δ : Int)
    (k1 : Int) (k2 : BetType) (k3 : List Int) :
    ((SicBoManager.addToExistingBet bets user_id bt numbers δ).filter
        (fun x => SicBoManager.betKeyMatches x k1 k2 k3)).length
      = (bets.filter (fun x => SicBoManager.betKeyMatches x k1 k2 k3)).length := by
  induction bets with
  | nil => rfl
  | cons x rest ih =>
      by_cases hx : SicBoManager.betKeyMatches x user_id bt numbers = true
      · simp only [SicBoManager.addToExistingBet, hx, if_true,
          List.filter_cons, betKeyMatches_update_amount]
        split_ifs <;> first | rfl | simp only [List.length_cons]
      · simp [SicBoManager.addToExistingBet, hx, List.filter_cons]
        split_ifs <;> first | rfl | simp [ih] | exact ih

/-! ## Success inversion for place_bet -/

theorem place_bet_success_inversion (st : ManagerState)
    (now chat_id user_id : Int) (bt : BetType) (amount : Int)
    (numbers : List Int) (username : String)
    (h : (SicBoManager.place_bet st now chat_id user_id bt amount numbers
        username).1.1 = true) :
    ∃ g, SicBoManager.get_game st chat_id = some g ∧
      g.phase = GamePhase.BETTING ∧ ¬ now > g.betting_end_time ∧
      ¬ amount ≤ 0 ∧ (SicBoManager.validate_bet_input bt numbers).1 = true ∧
      ¬ AccountManager.get_balance st.db user_id < amount := by
  cases hg : SicBoManager.lookupGame st.active_games chat_id with
  | none =>
      rw [place_bet_no_game st now chat_id user_id bt amount numbers
        username hg] at h
      simp at h
  | some g =>
      simp only [SicBoManager.place_bet, SicBoManager.get_game, hg] at h
      split_ifs at h with h1 h2 h3 h4 h5
      all_goals try simp at h
      exact ⟨g, hg, not_not.mp h1, h2, h3, by simpa using h4, h5⟩

/-! ## Effects of repeated successful placement -/

theorem placeRepeat_effects (now chat_id user_id : Int) (bt : BetType)
    (amount : Int) (numbers : List Int) (username : String) :
    ∀ (n : Nat) (st st' : ManagerState) (g : SicBoGame),
      SicBoManager.get_game st chat_id = some g →
      g.bets.filter
        (fun b => SicBoManager.betKeyMatches b user_id bt numbers) = [] →
      SicBoManager.placeRepeat now chat_id user_id bt amount numbers username
        n st = (true, st') →
      AccountManager.get_balance st'.db user_id
        = AccountManager.get_balance st.db user_id - (n : Int) * amount ∧
      ∃ g', SicBoManager.get_game st' chat_id = some g' ∧
        g'.bets.filter
          (fun b => SicBoManager.betKeyMatches b user_id bt numbers)
          = (if n = 0 then [] else
             [⟨user_id, bt, (n : Int) * amount, numbers, now, username⟩]) := by
  intro n
  induction n with
  | zero =>
      intro st st' g hg hkey h
      simp only [SicBoManager.placeRepeat, Prod.mk.injEq] at h
      obtain ⟨-, h⟩ := h
      subst h
      refine ⟨by simp, g, hg, by simp [hkey]⟩
  | succ n ih =>
      intro st st' g hg hkey h
      rcases hpr : SicBoManager.placeRepeat now chat_id user_id bt amount
        numbers username n st with ⟨ok, stn⟩
      simp only [SicBoManager.placeRepeat, hpr] at h
      cases ok with
      | false => simp at h
      | true =>
          simp only [Prod.mk.injEq] at h
          obtain ⟨hok, hst⟩ := h
          obtain ⟨hbal_n, gn, hgn, hkey_n⟩ := ih st stn g hg hkey hpr
          obtain ⟨gi, hgi, hph, htime, hamt, hval, hbalok⟩ :=
            place_bet_success_inversion stn now chat_id user_id bt amount
              numbers username hok
          have hgg : gi = gn := by
            rw [hgn] at hgi
            exact (Option.some.inj hgi).symm
          subst hgg
          have hshape := place_bet_ok_shape stn now chat_id user_id bt amount
            numbers username gi hgi hph htime hamt hval hbalok
          have huser : ∃ u, UserRepository.get_user stn.db user_id = some u := by
            cases hu : UserRepository.get_user stn.db user_id with
            | none =>
                exfalso
                apply hbalok
                rw [get_balance_of_no_user stn.db user_id hu]
                omega
            | some u => exact ⟨u, rfl⟩
          obtain ⟨u, hu⟩ := huser
          have hbal_step : ∀ db2,
              db2 = TransactionRepository.log_transaction
                ((UserRepository.update_balance stn.db now user_id (-amount)).2)
                now user_id (-amount) "sicbo_bet"
                (some ("骰宝押注: " ++ SicBoManager.get_bet_type_name bt numbers)) →
              AccountManager.get_balance db2 user_id
                = AccountManager.get_balance stn.db user_id - amount := by
            intro db2 hdb2
            rw [hdb2, get_balance_log_transaction,
              get_balance_update_self stn.db now user_id (-amount) u hu]
            ring
          by_cases hn : n = 0
          · subst hn
            simp only [if_pos rfl] at hkey_n
            have hfind : SicBoManager.find_existing_bet gi user_id bt numbers
                = none := (find_existing_bet_none_iff gi user_id bt numbers).mpr
                hkey_n
            rw [hfind] at hshape
            rw [hshape] at hst
            subst hst
            constructor
            · rw [hbal_step _ rfl, hbal_n]
              push_cast
              ring
            · refine ⟨_, lookupGame_setGame_self _ _ _, ?_⟩
              show (gi.bets ++ [(⟨user_id, bt, amount, numbers, now,
                username⟩ : SicBoBet)]).filter _ = _
              rw [List.filter_append, hkey_n]
              simp only [List.filter_cons, betKeyMatches_new_bet, if_true,
                List.filter_nil, List.nil_append, if_neg (Nat.succ_ne_zero 0)]
              norm_num
          · have hn1 : ¬ (n + 1 = 0) := Nat.succ_ne_zero n
            simp only [if_neg hn] at hkey_n
            have hfind : SicBoManager.find_existing_bet gi user_id bt numbers
                = some ⟨user_id, bt, (n : Int) * amount, numbers, now,
                  username⟩ :=
              find?_of_filter_singleton _ gi.bets _ hkey_n
            rw [hfind] at hshape
            rw [hshape] at hst
            subst hst
            constructor
            · rw [hbal_step _ rfl, hbal_n]
              push_cast
              ring
            · refine ⟨_, lookupGame_setGame_self _ _ _, ?_⟩
              show (SicBoManager.addToExistingBet gi.bets user_id bt numbers
                amount).filter _ = _
              rw [filter_addToExistingBet gi.bets user_id bt numbers amount _
                hkey_n, if_neg hn1]
              have hamts : (n : Int) * amount + amount
                  = ((n + 1 : Nat) : Int) * amount := by
                push_cast
                ring
              simp [hamts]

/-! ## C3: at most one bet per key, and merge idempotence -/

/-- C3: every round holds at most one bet per (actor, kind, selection), an
invariant preserved by every `place_bet`; and placing the same
(kind, selection) `n ≥ 1` times with stake `s`, each time succeeding,
leaves exactly one bet of that shape with stake `n × s` while the actor's
balance decreases by exactly `n × s`. -/
theorem bet_merge_idempotence :
    (∀ (st : ManagerState) (now chat_id user_id : Int) (bt : BetType)
        (amount : Int) (numbers : List Int) (username : String)
        (g g' : SicBoGame),
      SicBoManager.get_game st chat_id = some g →
      SicBoManager.uniqueBetKeys g →
      SicBoManager.get_game
          (SicBoManager.place_bet st now chat_id user_id bt amount numbers
            username).2 chat_id = some g' →
      SicBoManager.uniqueBetKeys g') ∧
    (∀ (st st' : ManagerState) (now chat_id user_id : Int) (bt : BetType)
        (amount : Int) (numbers : List Int) (username : String)
        (g : SicBoGame) (n : Nat),
      1 ≤ n →
      SicBoManager.get_game st chat_id = some g →
      g.bets.filter
        (fun b => SicBoManager.betKeyMatches b user_id bt numbers) = [] →
      SicBoManager.placeRepeat now chat_id user_id bt amount numbers username
        n st = (true, st') →
      ∃ g', SicBoManager.get_game st' chat_id = some g' ∧
        g'.bets.filter
          (fun b => SicBoManager.betKeyMatches b user_id bt numbers)
          = [⟨user_id, bt, (n : Int) * amount, numbers, now, username⟩] ∧
        AccountManager.get_balance st'.db user_id
          = AccountManager.get_balance st.db user_id - (n : Int) * amount) := by
  constructor
  · intro st now chat_id user_id bt amount numbers username g g' hg huniq hg'
    cases hr : (SicBoManager.place_bet st now chat_id user_id bt amount
        numbers username).1.1 with
    | false =>
        rw [place_bet_fail_unchanged st now chat_id user_id bt amount numbers
          username hr, hg] at hg'
        rw [← Option.some.inj hg']
        exact huniq
    | true =>
        obtain ⟨gi, hgi, hph, htime, hamt, hval, hbal⟩ :=
          place_bet_success_inversion st now chat_id user_id bt amount numbers
            username hr
        have hgig : gi = g := by
          rw [hg] at hgi
          exact (Option.some.inj hgi).symm
        subst hgig
        have hshape := place_bet_ok_shape st now chat_id user_id bt amount
          numbers username gi hgi hph htime hamt hval hbal
        cases hfind : SicBoManager.find_existing_bet gi user_id bt numbers with
        | some b =>
            rw [hfind] at hshape
            rw [hshape] at hg'
            simp only [SicBoManager.get_game, lookupGame_setGame_self] at hg'
            rw [← Option.some.inj hg']
            intro k1 k2 k3
            show ((SicBoManager.addToExistingBet gi.bets user_id bt numbers
              amount).filter _).length ≤ 1
            rw [filter_length_addToExistingBet]
            exact huniq k1 k2 k3
        | none =>
            rw [hfind] at hshape
            rw [hshape] at hg'
            simp only [SicBoManager.get_game, lookupGame_setGame_self] at hg'
            rw [← Option.some.inj hg']
            intro k1 k2 k3
            show ((gi.bets ++ [(⟨user_id, bt, amount, numbers, now,
              username⟩ : SicBoBet)]).filter _).length ≤ 1
            rw [List.filter_append, List.length_append]
            by_cases hm : SicBoManager.betKeyMatches
                ⟨user_id, bt, amount, numbers, now, username⟩ k1 k2 k3 = true
            · have hm' := hm
              simp only [SicBoManager.betKeyMatches, Bool.and_eq_true,
                beq_iff_eq] at hm'
              obtain ⟨⟨h1, h2⟩, h3⟩ := hm'
              subst h1
              subst h2
              subst h3
              have h0 : gi.bets.filter
                  (fun b => SicBoManager.betKeyMatches b user_id bt numbers)
                  = [] := (find_existing_bet_none_iff gi user_id bt
                    numbers).mp hfind
              rw [h0]
              simp [List.filter_cons, betKeyMatches_new_bet]
            · have h1 : ([(⟨user_id, bt, amount, numbers, now,
                  username⟩ : SicBoBet)].filter
                  (fun b => SicBoManager.betKeyMatches b k1 k2 k3)) = [] := by
                simp [List.filter_cons, hm]
              rw [h1]
              simpa using huniq k1 k2 k3
  · intro st st' now chat_id user_id bt amount numbers username g n hn hg
      hkey hrep
    obtain ⟨hbal, g', hget, hfilter⟩ := placeRepeat_effects now chat_id
      user_id bt amount numbers username n st st' g hg hkey hrep
    rw [if_neg (by omega)] at hfilter
    exact ⟨g', hget, hfilter, hbal⟩

/-- Witness for C3: actor 1 (balance 1000) places single-3 stake 100 twice
into a fresh BETTING round; one bet of stake 200 remains and the balance
dropped by 200. -/
theorem bet_merge_idempotence_witness :
    ∃ g', SicBoManager.get_game
        (SicBoManager.placeRepeat 10 99 1 BetType.SINGLE 100 [3] "A" 2
          ⟨⟨[⟨1, "A", 1000, 0, 0, 0⟩], []⟩,
           [(99, ⟨99, GamePhase.BETTING, [], [], 0, 60, none⟩)]⟩).2 99
        = some g' ∧
      g'.bets.filter
        (fun b => SicBoManager.betKeyMatches b 1 BetType.SINGLE [3])
        = [⟨1, BetType.SINGLE, (2 : Nat) * 100, [3], 10, "A"⟩] ∧
      AccountManager.get_balance
        (SicBoManager.placeRepeat 10 99 1 BetType.SINGLE 100 [3] "A" 2
          ⟨⟨[⟨1, "A", 1000, 0, 0, 0⟩], []⟩,
           [(99, ⟨99, GamePhase.BETTING, [], [], 0, 60, none⟩)]⟩).2.db 1
        = AccountManager.get_balance
            (⟨⟨[⟨1, "A", 1000, 0, 0, 0⟩], []⟩,
              [(99, ⟨99, GamePhase.BETTING, [], [], 0, 60, none⟩)]⟩ :
              ManagerState).db 1 - (2 : Nat) * 100 :=
  bet_merge_idempotence.2
    ⟨⟨[⟨1, "A", 1000, 0, 0, 0⟩], []⟩,
     [(99, ⟨99, GamePhase.BETTING, [], [], 0, 60, none⟩)]⟩
    (SicBoManager.placeRepeat 10 99 1 BetType.SINGLE 100 [3] "A" 2
      ⟨⟨[⟨1, "A", 1000, 0, 0, 0⟩], []⟩,
       [(99, ⟨99, GamePhase.BETTING, [], [], 0, 60, none⟩)]⟩).2
    10 99 1 BetType.SINGLE 100 [3] "A"
    ⟨99, GamePhase.BETTING, [], [], 0, 60, none⟩ 2
    (by omega) rfl rfl (by rfl)

/-! ## Settlement accounting lemmas -/

theorem netSum_addBetToResults (dice : List Int)
    (rs : List SicBoManager.PlayerResult) (bet : SicBoBet) :
    ((SicBoManager.addBetToResults dice rs bet).map
        (fun r => r.total_payout - r.total_bet)).sum
      = (rs.map (fun r => r.total_payout - r.total_bet)).sum
        + (SicBoCalculator.calculate_bet_payout bet dice - bet.amount) := by
  induction rs with
  | nil => simp [SicBoManager.addBetToResults]
  | cons r rest ih =>
      by_cases hr : (r.user_id == bet.user_id) = true
      · simp only [SicBoManager.addBetToResults, hr, if_true, List.map_cons,
          List.sum_cons]
        ring
      · rw [SicBoManager.addBetToResults, if_neg hr]
        simp only [List.map_cons, List.sum_cons, ih]
        ring

theorem netSum_foldl (dice : List Int) :
    ∀ (bets : List SicBoBet) (rs : List SicBoManager.PlayerResult),
    ((bets.foldl (SicBoManager.addBetToResults dice) rs).map
        (fun r => r.total_payout - r.total_bet)).sum
      = (rs.map (fun r => r.total_payout - r.total_bet)).sum
        + (bets.map (fun b =>
            SicBoCalculator.calculate_bet_payout b dice - b.amount)).sum := by
  intro bets
  induction bets with
  | nil => simp
  | cons b rest ih =>
      intro rs
      simp only [List.foldl_cons, List.map_cons, List.sum_cons, ih,
        netSum_addBetToResults]
      ring

theorem totalBetOf_addBetToResults (dice : List Int)
    (rs : List SicBoManager.PlayerResult) (bet : SicBoBet) (u : Int) :
    SicBoManager.totalBetOf (SicBoManager.addBetToResults dice rs bet) u
      = SicBoManager.totalBetOf rs u
        + (if (bet.user_id == u) = true then bet.amount else 0) := by
  induction rs with
  | nil =>
      by_cases hu : (bet.user_id == u) = true
      · simp [SicBoManager.addBetToResults, SicBoManager.totalBetOf,
          List.find?_cons, hu]
      · simp [SicBoManager.addBetToResults, SicBoManager.totalBetOf,
          List.find?_cons, hu]
  | cons r rest ih =>
      by_cases hr : (r.user_id == bet.user_id) = true
      · by_cases hu : (r.user_id == u) = true
        · have hbu : (bet.user_id == u) = true := by
            have h1 : r.user_id = bet.user_id := by simpa using hr
            have h2 : r.user_id = u := by simpa using hu
            simp [← h1, h2]
          simp only [SicBoManager.addBetToResults, hr, if_true,
            SicBoManager.totalBetOf, List.find?_cons]
          simp [hu, hbu]
        · have hbu : ¬ (bet.user_id == u) = true := by
            intro hc
            apply hu
            have h1 : r.user_id = bet.user_id := by simpa using hr
            have h2 : bet.user_id = u := by simpa using hc
            simp [h1, h2]
          simp only [SicBoManager.addBetToResults, hr, if_true,
            SicBoManager.totalBetOf, List.find?_cons]
          simp [hu, hbu]
      · by_cases hu : (r.user_id == u) = true
        · have hbu : ¬ (bet.user_id == u) = true := by
            intro hc
            apply hr
            have h1 : bet.user_id = u := by simpa using hc
            have h2 : r.user_id = u := by simpa using hu
            simp [h1, h2]
          rw [SicBoManager.addBetToResults, if_neg hr]
          simp only [SicBoManager.totalBetOf, List.find?_cons]
          simp [hu, hbu]
        · rw [SicBoManager.addBetToResults, if_neg hr]
          simp only [SicBoManager.totalBetOf, List.find?_cons] at ih ⊢
          simp only [hu]
          simpa using ih

theorem totalPayoutOf_addBetToResults (dice : List Int)
    (rs : List SicBoManager.PlayerResult) (bet : SicBoBet) (u : Int) :
    SicBoManager.totalPayoutOf (SicBoManager.addBetToResults dice rs bet) u
      = SicBoManager.totalPayoutOf rs u
        + (if (bet.user_id == u) = true then
            SicBoCalculator.calculate_bet_payout bet dice else 0) := by
  induction rs with
  | nil =>
      by_cases hu : (bet.user_id == u) = true
      · simp [SicBoManager.addBetToResults, SicBoManager.totalPayoutOf,
          List.find?_cons, hu]
      · simp [SicBoManager.addBetToResults, SicBoManager.totalPayoutOf,
          List.find?_cons, hu]
  | cons r rest ih =>
      by_cases hr : (r.user_id == bet.user_id) = true
      · by_cases hu : (r.user_id == u) = true
        · have hbu : (bet.user_id == u) = true := by
            have h1 : r.user_id = bet.user_id := by simpa using hr
            have h2 : r.user_id = u := by simpa using hu
            simp [← h1, h2]
          simp only [SicBoManager.addBetToResults, hr, if_true,
            SicBoManager.totalPayoutOf, List.find?_cons]
          simp [hu, hbu]
        · have hbu : ¬ (bet.user_id == u) = true := by
            intro hc
            apply hu
            have h1 : r.user_id = bet.user_id := by simpa using hr
            have h2 : bet.user_id = u := by simpa using hc
            simp [h1, h2]
          simp only [SicBoManager.addBetToResults, hr, if_true,
            SicBoManager.totalPayoutOf, List.find?_cons]
          simp [hu, hbu]
      · by_cases hu : (r.user_id == u) = true
        · have hbu : ¬ (bet.user_id == u) = true := by
            intro hc
            apply hr
            have h1 : bet.user_id = u := by simpa using hc
            have h2 : r.user_id = u := by simpa using hu
            simp [h1, h2]
          rw [SicBoManager.addBetToResults, if_neg hr]
          simp only [SicBoManager.totalPayoutOf, List.find?_cons]
          simp [hu, hbu]
        · rw [SicBoManager.addBetToResults, if_neg hr]
          simp only [SicBoManager.totalPayoutOf, List.find?_cons] at ih ⊢
          simp only [hu]
          simpa using ih

theorem totalBetOf_foldl (dice : List Int) :
    ∀ (bets : List SicBoBet) (rs : List SicBoManager.PlayerResult) (u : Int),
    SicBoManager.totalBetOf (bets.foldl (SicBoManager.addBetToResults dice) rs) u
      = SicBoManager.totalBetOf rs u
        + ((bets.filter (fun b => b.user_id == u)).map (fun b => b.amount)).sum := by
  intro bets
  induction bets with
  | nil => simp
  | cons b rest ih =>
      intro rs u
      simp only [List.foldl_cons, ih, totalBetOf_addBetToResults,
        List.filter_cons]
      by_cases hb : (b.user_id == u) = true
      · simp [hb]
        ring
      · simp [hb]

theorem totalPayoutOf_foldl (dice : List Int) :
    ∀ (bets : List SicBoBet) (rs : List SicBoManager.PlayerResult) (u : Int),
    SicBoManager.totalPayoutOf
        (bets.foldl (SicBoManager.addBetToResults dice) rs) u
      = SicBoManager.totalPayoutOf rs u
        + ((bets.filter (fun b => b.user_id == u)).map
            (fun b => SicBoCalculator.calculate_bet_payout b dice)).sum := by
  intro bets
  induction bets with
  | nil => simp
  | cons b rest ih =>
      intro rs u
      simp only [List.foldl_cons, ih, totalPayoutOf_addBetToResults,
        List.filter_cons]
      by_cases hb : (b.user_id == u) = true
      · simp [hb]
        ring
      · simp [hb]

theorem keys_addBetToResults (dice : List Int)
    (rs : List SicBoManager.PlayerResult) (bet : SicBoBet) :
    (SicBoManager.addBetToResults dice rs bet).map (fun r => r.user_id)
      = rs.map (fun r => r.user_id) ∨
    ((SicBoManager.addBetToResults dice rs bet).map (fun r => r.user_id)
      = rs.map (fun r => r.user_id) ++ [bet.user_id] ∧
     bet.user_id ∉ rs.map (fun r => r.user_id)) := by
  induction rs with
  | nil => right; simp [SicBoManager.addBetToResults]
  | cons r rest ih =>
      by_cases hr : (r.user_id == bet.user_id) = true
      · left
        simp [SicBoManager.addBetToResults, hr]
      · have hne : bet.user_id ≠ r.user_id := by
          intro hc
          exact hr (by simp [hc])
        rcases ih with heq | ⟨heq, hmem⟩
        · left
          rw [SicBoManager.addBetToResults, if_neg hr]
          simp [heq]
        · right
          constructor
          · rw [SicBoManager.addBetToResults, if_neg hr]
            simp [heq]
          · simp only [List.map_cons, List.mem_cons]
            rintro (hc | hc)
            · exact hne hc
            · exact hmem hc

theorem nodup_keys_addBetToResults (dice : List Int)
    (rs : List SicBoManager.PlayerResult) (bet : SicBoBet)
    (h : (rs.map (fun r => r.user_id)).Nodup) :
    ((SicBoManager.addBetToResults dice rs bet).map
      (fun r => r.user_id)).Nodup := by
  rcases keys_addBetToResults dice rs bet with heq | ⟨heq, hmem⟩
  · rw [heq]; exact h
  · rw [heq]
    simp [List.nodup_append, h, List.disjoint_singleton, hmem]

theorem nodup_keys_foldl (dice : List Int) :
    ∀ (bets : List SicBoBet) (rs : List SicBoManager.PlayerResult),
    (rs.map (fun r => r.user_id)).Nodup →
    (((bets.foldl (SicBoManager.addBetToResults dice) rs)).map
      (fun r => r.user_id)).Nodup := by
  intro bets
  induction bets with
  | nil => intro rs h; simpa using h
  | cons b rest ih =>
      intro rs h
      simp only [List.foldl_cons]
      exact ih _ (nodup_keys_addBetToResults dice rs b h)

theorem find?_of_mem_nodup (rs : List SicBoManager.PlayerResult)
    (r : SicBoManager.PlayerResult)
    (hnd : (rs.map (fun x => x.user_id)).Nodup) (hmem : r ∈ rs) :
    rs.find? (fun x => x.user_id == r.user_id) = some r := by
  induction rs with
  | nil => cases hmem
  | cons x rest ih =>
      rcases List.mem_cons.mp hmem with rfl | hmem'
      · simp [List.find?_cons]
      · rw [List.map_cons] at hnd
        have hnd' := List.nodup_cons.mp hnd
        have hx : ¬ (x.user_id == r.user_id) = true := by
          intro hbeq
          apply hnd'.1
          have hxe : x.user_id = r.user_id := by simpa using hbeq
          rw [hxe]
          exact List.mem_map_of_mem _ hmem'
        simp only [List.find?_cons, hx]
        exact ih hnd'.2 hmem'

/-! ## C5: net-result conservation -/

/-- C5: for every settled round, the net result returned for each actor
equals that actor's total payout minus that actor's total stake, and the
sum over all bets of (payout − stake) equals the sum of the returned net
results over all actors. -/
theorem settlement_net_conservation (st : ManagerState) (now chat_id : Int)
    (g : SicBoGame) (hg : SicBoManager.get_game st chat_id = some g)
    (hok : (SicBoManager.settle_game st now chat_id).1.1 = true) :
    (∀ p ∈ (SicBoManager.settle_game st now chat_id).1.2.1,
      p.2 = ((g.bets.filter (fun b => b.user_id == p.1)).map
              (fun b => SicBoCalculator.calculate_bet_payout b
                g.dice_results)).sum
          - ((g.bets.filter (fun b => b.user_id == p.1)).map
              (fun b => b.amount)).sum) ∧
    ((g.bets.map (fun b =>
        SicBoCalculator.calculate_bet_payout b g.dice_results - b.amount)).sum
      = (((SicBoManager.settle_game st now chat_id).1.2.1).map
          (fun p => p.2)).sum) := by
  by_cases hph : g.phase = GamePhase.ROLLING
  · by_cases hd : (g.dice_results.isEmpty = true ∨ g.dice_results.length ≠ 3)
    · rw [settle_game_bad_dice st now chat_id g hg hph hd] at hok
      simp at hok
    · have hshape := settle_game_ok_shape st now chat_id g hg hph hd
      rw [hshape]
      constructor
      · intro p hp
        simp only at hp
        obtain ⟨r, hrmem, rfl⟩ := List.mem_map.mp hp
        have hnd : ((SicBoManager.calculate_player_results g).map
            (fun x => x.user_id)).Nodup := by
          rw [SicBoManager.calculate_player_results]
          exact nodup_keys_foldl g.dice_results g.bets [] (by simp)
        have hfind := find?_of_mem_nodup _ r hnd hrmem
        have hbet : SicBoManager.totalBetOf
            (SicBoManager.calculate_player_results g) r.user_id
            = r.total_bet := by
          simp [SicBoManager.totalBetOf, hfind]
        have hpay : SicBoManager.totalPayoutOf
            (SicBoManager.calculate_player_results g) r.user_id
            = r.total_payout := by
          simp [SicBoManager.totalPayoutOf, hfind]
        rw [SicBoManager.calculate_player_results,
          totalBetOf_foldl g.dice_results g.bets [] r.user_id] at hbet
        rw [SicBoManager.calculate_player_results,
          totalPayoutOf_foldl g.dice_results g.bets [] r.user_id] at hpay
        simp only [SicBoManager.totalBetOf, SicBoManager.totalPayoutOf,
          List.find?_nil, zero_add] at hbet hpay
        show r.total_payout - r.total_bet = _
        rw [← hbet, ← hpay]
      · rw [List.map_map]
        have h1 := netSum_foldl g.dice_results g.bets []
        simp only [List.map_nil, List.sum_nil, zero_add] at h1
        rw [SicBoManager.calculate_player_results]
        rw [← h1]
        rfl
  · rw [settle_game_wrong_phase st now chat_id g hg hph] at hok
    simp at hok

/-- Witness for C5: the spec's Scenario A round (actor 1 bet 100 on high,
actor 2 bet 150 on single 3, outcome [2, 3, 6]) settles with per-actor
nets equal to payout minus stake and a conserved total. -/
theorem settlement_net_conservation_witness :
    (∀ p ∈ (SicBoManager.settle_game scenarioState 130 99).1.2.1,
      p.2 = ((scenarioGame.bets.filter (fun b => b.user_id == p.1)).map
              (fun b => SicBoCalculator.calculate_bet_payout b
                scenarioGame.dice_results)).sum
          - ((scenarioGame.bets.filter (fun b => b.user_id == p.1)).map
              (fun b => b.amount)).sum) ∧
    ((scenarioGame.bets.map (fun b =>
        SicBoCalculator.calculate_bet_payout b scenarioGame.dice_results
          - b.amount)).sum
      = (((SicBoManager.settle_game scenarioState 130 99).1.2.1).map
          (fun p => p.2)).sum) :=
  settlement_net_conservation scenarioState 130 99 scenarioGame rfl rfl
